import Mathlib

/-!
Verification development for the incremental state-synchronization client of
this repository.  Two program fragments are embedded:

* `Client` — the entity (`Unit`) state machine of `src/unnamed/part_001`:
  per-sub-record partial-update merge (`setData`), selection (`setSelected`)
  and visibility (`updateVisibility`).
* `Manager` — the reconciliation engine (`UnitsManager`) of
  `src/unnamed/part_002`: binary decode loop (`update`), group assignment,
  detection derivation and hotgroup selection.  The binary cursor
  (`DataExtractor`), the field-codec table (`DataIndexes`), the wire-level
  entity class and the `Group` class are imported by `part_002` but their
  sources are not part of the repository snapshot; they are modelled from the
  specification, as marked on each such definition.
-/

namespace Client

/-- Base sub-record of a unit's data (part_001 lines 19-26). -/
structure BaseData where
  AI : Bool
  name : String
  unitName : String
  groupName : String
  alive : Bool
  category : String
  deriving DecidableEq

/-- Kinematic sub-record (part_001 lines 27-33); the floating-point values are
modelled as rationals, no arithmetic is ever performed on them. -/
structure FlightData where
  latitude : ℚ
  longitude : ℚ
  altitude : ℚ
  heading : ℚ
  speed : ℚ
  deriving DecidableEq

/-- Mission sub-record (part_001 lines 34-41); the `flags`, `ammo` and
`targets` dictionaries are modelled as association lists, the code only stores
and copies them wholesale. -/
structure MissionData where
  fuel : ℚ
  flags : List (String × Bool)
  ammo : List (String × Nat)
  targets : List (String × List Nat)
  hasTask : Bool
  coalition : String
  deriving DecidableEq

/-- Formation sub-record (part_001 lines 42-44). -/
structure FormationData where
  leaderID : Nat
  deriving DecidableEq

/-- Task sub-record (part_001 lines 45-61); `activePath` is the ordered
waypoint-index-to-position mapping. -/
structure TaskData where
  currentState : String
  currentTask : String
  activePath : List (Nat × (ℚ × ℚ))
  targetSpeed : ℚ
  targetAltitude : ℚ
  isTanker : Bool
  isAWACS : Bool
  TACANOn : Bool
  TACANChannel : Nat
  TACANXY : String
  TACANCallsign : String
  radioFrequency : ℚ
  radioCallsign : Nat
  radioCallsignNumber : Nat
  radioAMFM : String
  deriving DecidableEq

/-- Options sub-record (part_001 lines 62-65). -/
structure OptionsData where
  ROE : String
  reactionToThreat : String
  deriving DecidableEq

/-- The full per-entity state record (part_001 lines 18-66). -/
structure UnitData where
  baseData : BaseData
  flightData : FlightData
  missionData : MissionData
  formationData : FormationData
  taskData : TaskData
  optionsData : OptionsData
  deriving DecidableEq

/-- The initializer of `#data` (part_001 lines 18-66). -/
def initialData : UnitData :=
  { baseData := { AI := false, name := "", unitName := "", groupName := "",
                  alive := true, category := "" }
    flightData := { latitude := 0, longitude := 0, altitude := 0, heading := 0,
                    speed := 0 }
    missionData := { fuel := 0, flags := [], ammo := [], targets := [],
                     hasTask := false, coalition := "" }
    formationData := { leaderID := 0 }
    taskData := { currentState := "IDLE", currentTask := "", activePath := [],
                  targetSpeed := 0, targetAltitude := 0, isTanker := false,
                  isAWACS := false, TACANOn := false, TACANChannel := 0,
                  TACANXY := "X", TACANCallsign := "", radioFrequency := 0,
                  radioCallsign := 0, radioCallsignNumber := 0,
                  radioAMFM := "AM" }
    optionsData := { ROE := "", reactionToThreat := "" } }

/-- A partial update of the base sub-record: a key present in the incoming
object is a `some` field, an absent key is `none`. -/
structure BaseDataU where
  AI : Option Bool := none
  name : Option String := none
  unitName : Option String := none
  groupName : Option String := none
  alive : Option Bool := none
  category : Option String := none
  deriving DecidableEq

/-- Partial update of the kinematic sub-record. -/
structure FlightDataU where
  latitude : Option ℚ := none
  longitude : Option ℚ := none
  altitude : Option ℚ := none
  heading : Option ℚ := none
  speed : Option ℚ := none
  deriving DecidableEq

/-- Partial update of the mission sub-record. -/
structure MissionDataU where
  fuel : Option ℚ := none
  flags : Option (List (String × Bool)) := none
  ammo : Option (List (String × Nat)) := none
  targets : Option (List (String × List Nat)) := none
  hasTask : Option Bool := none
  coalition : Option String := none
  deriving DecidableEq

/-- Partial update of the formation sub-record. -/
structure FormationDataU where
  leaderID : Option Nat := none
  deriving DecidableEq

/-- Partial update of the task sub-record. -/
structure TaskDataU where
  currentState : Option String := none
  currentTask : Option String := none
  activePath : Option (List (Nat × (ℚ × ℚ))) := none
  targetSpeed : Option ℚ := none
  targetAltitude : Option ℚ := none
  isTanker : Option Bool := none
  isAWACS : Option Bool := none
  TACANOn : Option Bool := none
  TACANChannel : Option Nat := none
  TACANXY : Option String := none
  TACANCallsign : Option String := none
  radioFrequency : Option ℚ := none
  radioCallsign : Option Nat := none
  radioCallsignNumber : Option Nat := none
  radioAMFM : Option String := none
  deriving DecidableEq

/-- Partial update of the options sub-record. -/
structure OptionsDataU where
  ROE : Option String := none
  reactionToThreat : Option String := none
  deriving DecidableEq

/-- The argument of `Unit.setData`: one partial update.  A sub-record object
that is absent from the incoming update corresponds to the all-`none`
sub-record (the per-key copy loop of part_001 lines 151-197 then copies
nothing, exactly as when the guard `data.xxxData != undefined` fails). -/
structure UpdateData where
  baseData : BaseDataU := {}
  flightData : FlightDataU := {}
  missionData : MissionDataU := {}
  formationData : FormationDataU := {}
  taskData : TaskDataU := {}
  optionsData : OptionsDataU := {}
  deriving DecidableEq

/-- The per-key copy loop of part_001 lines 151-157 on the base sub-record:
every key present in the update overwrites, every absent key is kept. -/
def mergeBaseData (d : BaseData) (u : BaseDataU) : BaseData :=
  { AI := u.AI.getD d.AI, name := u.name.getD d.name,
    unitName := u.unitName.getD d.unitName,
    groupName := u.groupName.getD d.groupName,
    alive := u.alive.getD d.alive, category := u.category.getD d.category }

/-- Per-key copy loop (part_001 lines 159-165) on the kinematic sub-record. -/
def mergeFlightData (d : FlightData) (u : FlightDataU) : FlightData :=
  { latitude := u.latitude.getD d.latitude,
    longitude := u.longitude.getD d.longitude,
    altitude := u.altitude.getD d.altitude,
    heading := u.heading.getD d.heading, speed := u.speed.getD d.speed }

/-- Per-key copy loop (part_001 lines 167-173) on the mission sub-record. -/
def mergeMissionData (d : MissionData) (u : MissionDataU) : MissionData :=
  { fuel := u.fuel.getD d.fuel, flags := u.flags.getD d.flags,
    ammo := u.ammo.getD d.ammo, targets := u.targets.getD d.targets,
    hasTask := u.hasTask.getD d.hasTask,
    coalition := u.coalition.getD d.coalition }

/-- Per-key copy loop (part_001 lines 175-181) on the formation sub-record. -/
def mergeFormationData (d : FormationData) (u : FormationDataU) : FormationData :=
  { leaderID := u.leaderID.getD d.leaderID }

/-- Per-key copy loop (part_001 lines 183-189) on the task sub-record. -/
def mergeTaskData (d : TaskData) (u : TaskDataU) : TaskData :=
  { currentState := u.currentState.getD d.currentState,
    currentTask := u.currentTask.getD d.currentTask,
    activePath := u.activePath.getD d.activePath,
    targetSpeed := u.targetSpeed.getD d.targetSpeed,
    targetAltitude := u.targetAltitude.getD d.targetAltitude,
    isTanker := u.isTanker.getD d.isTanker,
    isAWACS := u.isAWACS.getD d.isAWACS,
    TACANOn := u.TACANOn.getD d.TACANOn,
    TACANChannel := u.TACANChannel.getD d.TACANChannel,
    TACANXY := u.TACANXY.getD d.TACANXY,
    TACANCallsign := u.TACANCallsign.getD d.TACANCallsign,
    radioFrequency := u.radioFrequency.getD d.radioFrequency,
    radioCallsign := u.radioCallsign.getD d.radioCallsign,
    radioCallsignNumber := u.radioCallsignNumber.getD d.radioCallsignNumber,
    radioAMFM := u.radioAMFM.getD d.radioAMFM }

/-- Per-key copy loop (part_001 lines 191-197) on the options sub-record. -/
def mergeOptionsData (d : OptionsData) (u : OptionsDataU) : OptionsData :=
  { ROE := u.ROE.getD d.ROE,
    reactionToThreat := u.reactionToThreat.getD d.reactionToThreat }

/-- The whole data-merging effect of `Unit.setData` (part_001 lines 151-197). -/
def mergeUnitData (d : UnitData) (u : UpdateData) : UnitData :=
  { baseData := mergeBaseData d.baseData u.baseData
    flightData := mergeFlightData d.flightData u.flightData
    missionData := mergeMissionData d.missionData u.missionData
    formationData := mergeFormationData d.formationData u.formationData
    taskData := mergeTaskData d.taskData u.taskData
    optionsData := mergeOptionsData d.optionsData u.optionsData }

/-- The read-only visibility-flag source (spec section 6): the
`document.body.getAttribute(data-hide-...)` queries of part_001 lines 286-287,
keyed by coalition name and by marker-category name. -/
structure VisEnv where
  hideCoalition : String → Bool
  hideCategory : String → Bool

/-- One entity of part_001: its `#data` record and the selection/visibility
flags.  `markerCategory` is the value of the `getMarkerCategory()` override of
the concrete subclass; `onMap` models leaflet layer membership
(`getMap().hasLayer(this)`). -/
structure Unit where
  ID : Nat
  data : UnitData
  markerCategory : String
  selectable : Bool
  selected : Bool
  hidden : Bool
  onMap : Bool
  deriving DecidableEq

/-- `setSelected` (part_001 lines 244-254): the flag changes only when the
unit is alive (or is being deselected), is selectable, and the value actually
changes. -/
def Unit.setSelected (u : Unit) (selected : Bool) : Unit :=
  if (u.data.baseData.alive || !selected) && u.selectable
      && (u.selected != selected) then
    { u with selected := selected }
  else u

/-- `setHidden` (part_001 lines 291-304): stores the flag and adds/removes the
leaflet marker accordingly. -/
def Unit.setHidden (u : Unit) (hidden : Bool) : Unit :=
  let u1 : Unit := { u with hidden := hidden }
  let u2 : Unit := if !u1.onMap && !u1.hidden then { u1 with onMap := true } else u1
  if u2.onMap && u2.hidden then { u2 with onMap := false } else u2

/-- `updateVisibility` (part_001 lines 284-289): hidden iff the coalition-hide
flag is set, or the category-hide flag is set, or the unit is dead. -/
def Unit.updateVisibility (env : VisEnv) (u : Unit) : Unit :=
  u.setHidden (env.hideCoalition u.data.missionData.coalition
    || env.hideCategory u.markerCategory
    || !u.data.baseData.alive)

/-- The state-relevant part of `#updateMarker` (part_001 lines 476-547): it
re-derives visibility; everything else in it writes to the DOM/minimap only. -/
def Unit.updateMarker (env : VisEnv) (u : Unit) : Unit :=
  u.updateVisibility env

/-- `setData` (part_001 lines 144-214): detects changes, merges the present
fields of every sub-record, forces deselection of dead or hidden units, and
refreshes the marker when position/heading/alive changed or the marker is not
on the map.  Path/target drawing (lines 205-211) touches rendering state
only. -/
def Unit.setData (env : VisEnv) (u : Unit) (d : UpdateData) : Unit :=
  let positionChanged : Bool :=
    match d.flightData.latitude, d.flightData.longitude with
    | some la, some lo =>
        decide (u.data.flightData.latitude ≠ la)
          || decide (u.data.flightData.longitude ≠ lo)
    | _, _ => false
  let headingChanged : Bool :=
    match d.flightData.heading with
    | some h => decide (u.data.flightData.heading ≠ h)
    | none => false
  let aliveChanged : Bool :=
    match d.baseData.alive with
    | some a => decide (u.data.baseData.alive ≠ a)
    | none => false
  let updateMarker : Bool :=
    positionChanged || headingChanged || aliveChanged || !u.onMap
  let u1 : Unit := { u with data := mergeUnitData u.data d }
  let u2 : Unit :=
    u1.setSelected (u1.selected && u1.data.baseData.alive && !u1.hidden)
  if updateMarker then u2.updateMarker env else u2

/-- The `Unit` constructor (part_001 lines 91-128): fresh flags, initial data,
then one `setData` with the construction-time update. -/
def mkUnit (env : VisEnv) (ID : Nat) (markerCategory : String)
    (d : UpdateData) : Unit :=
  Unit.setData env
    { ID := ID, data := initialData, markerCategory := markerCategory,
      selectable := true, selected := false, hidden := false, onMap := false } d

/-- The `Weapon` constructor (part_001 lines 708-712): the `Unit` constructor
followed by `setSelectable(false)`. -/
def mkWeapon (env : VisEnv) (ID : Nat) (markerCategory : String)
    (d : UpdateData) : Unit :=
  { mkUnit env ID markerCategory d with selectable := false }

/-- The `Missile` constructor (part_001 lines 724-732). -/
def mkMissile (env : VisEnv) (ID : Nat) (d : UpdateData) : Unit :=
  mkWeapon env ID "missile" d

/-- The `Bomb` constructor (part_001 lines 734-742). -/
def mkBomb (env : VisEnv) (ID : Nat) (d : UpdateData) : Unit :=
  mkWeapon env ID "bomb" d

/-- An update carrying a single field: a new fuel value. -/
def fuelOnly (x : ℚ) : UpdateData :=
  { missionData := { fuel := some x } }

/-- Disjointness of two partial base sub-record updates: at most one of the
two carries each field. -/
def BaseDisjoint (a b : BaseDataU) : Bool :=
  (a.AI.isNone || b.AI.isNone)
  && (a.name.isNone || b.name.isNone)
  && (a.unitName.isNone || b.unitName.isNone)
  && (a.groupName.isNone || b.groupName.isNone)
  && (a.alive.isNone || b.alive.isNone)
  && (a.category.isNone || b.category.isNone)

/-- Disjointness of two partial kinematic sub-record updates. -/
def FlightDisjoint (a b : FlightDataU) : Bool :=
  (a.latitude.isNone || b.latitude.isNone)
  && (a.longitude.isNone || b.longitude.isNone)
  && (a.altitude.isNone || b.altitude.isNone)
  && (a.heading.isNone || b.heading.isNone)
  && (a.speed.isNone || b.speed.isNone)

/-- Disjointness of two partial mission sub-record updates. -/
def MissionDisjoint (a b : MissionDataU) : Bool :=
  (a.fuel.isNone || b.fuel.isNone)
  && (a.flags.isNone || b.flags.isNone)
  && (a.ammo.isNone || b.ammo.isNone)
  && (a.targets.isNone || b.targets.isNone)
  && (a.hasTask.isNone || b.hasTask.isNone)
  && (a.coalition.isNone || b.coalition.isNone)

/-- Disjointness of two partial formation sub-record updates. -/
def FormationDisjoint (a b : FormationDataU) : Bool :=
  a.leaderID.isNone || b.leaderID.isNone

/-- Disjointness of two partial task sub-record updates. -/
def TaskDisjoint (a b : TaskDataU) : Bool :=
  (a.currentState.isNone || b.currentState.isNone)
  && (a.currentTask.isNone || b.currentTask.isNone)
  && (a.activePath.isNone || b.activePath.isNone)
  && (a.targetSpeed.isNone || b.targetSpeed.isNone)
  && (a.targetAltitude.isNone || b.targetAltitude.isNone)
  && (a.isTanker.isNone || b.isTanker.isNone)
  && (a.isAWACS.isNone || b.isAWACS.isNone)
  && (a.TACANOn.isNone || b.TACANOn.isNone)
  && (a.TACANChannel.isNone || b.TACANChannel.isNone)
  && (a.TACANXY.isNone || b.TACANXY.isNone)
  && (a.TACANCallsign.isNone || b.TACANCallsign.isNone)
  && (a.radioFrequency.isNone || b.radioFrequency.isNone)
  && (a.radioCallsign.isNone || b.radioCallsign.isNone)
  && (a.radioCallsignNumber.isNone || b.radioCallsignNumber.isNone)
  && (a.radioAMFM.isNone || b.radioAMFM.isNone)

/-- Disjointness of two partial options sub-record updates. -/
def OptionsDisjoint (a b : OptionsDataU) : Bool :=
  (a.ROE.isNone || b.ROE.isNone)
  && (a.reactionToThreat.isNone || b.reactionToThreat.isNone)

/-- Two partial updates have disjoint field sets: for every wire field at most
one of the two carries a value. -/
def UpdateDisjoint (a b : UpdateData) : Prop :=
  (BaseDisjoint a.baseData b.baseData
    && FlightDisjoint a.flightData b.flightData
    && MissionDisjoint a.missionData b.missionData
    && FormationDisjoint a.formationData b.formationData
    && TaskDisjoint a.taskData b.taskData
    && OptionsDisjoint a.optionsData b.optionsData) = true

instance (a b : UpdateData) : Decidable (UpdateDisjoint a b) := by
  unfold UpdateDisjoint; infer_instance

/-- Right-biased union of two partial updates: the later update wins on the
fields it carries. -/
def mergeUpd (a b : UpdateData) : UpdateData :=
  { baseData :=
      { AI := b.baseData.AI <|> a.baseData.AI,
        name := b.baseData.name <|> a.baseData.name,
        unitName := b.baseData.unitName <|> a.baseData.unitName,
        groupName := b.baseData.groupName <|> a.baseData.groupName,
        alive := b.baseData.alive <|> a.baseData.alive,
        category := b.baseData.category <|> a.baseData.category }
    flightData :=
      { latitude := b.flightData.latitude <|> a.flightData.latitude,
        longitude := b.flightData.longitude <|> a.flightData.longitude,
        altitude := b.flightData.altitude <|> a.flightData.altitude,
        heading := b.flightData.heading <|> a.flightData.heading,
        speed := b.flightData.speed <|> a.flightData.speed }
    missionData :=
      { fuel := b.missionData.fuel <|> a.missionData.fuel,
        flags := b.missionData.flags <|> a.missionData.flags,
        ammo := b.missionData.ammo <|> a.missionData.ammo,
        targets := b.missionData.targets <|> a.missionData.targets,
        hasTask := b.missionData.hasTask <|> a.missionData.hasTask,
        coalition := b.missionData.coalition <|> a.missionData.coalition }
    formationData :=
      { leaderID := b.formationData.leaderID <|> a.formationData.leaderID }
    taskData :=
      { currentState := b.taskData.currentState <|> a.taskData.currentState,
        currentTask := b.taskData.currentTask <|> a.taskData.currentTask,
        activePath := b.taskData.activePath <|> a.taskData.activePath,
        targetSpeed := b.taskData.targetSpeed <|> a.taskData.targetSpeed,
        targetAltitude := b.taskData.targetAltitude <|> a.taskData.targetAltitude,
        isTanker := b.taskData.isTanker <|> a.taskData.isTanker,
        isAWACS := b.taskData.isAWACS <|> a.taskData.isAWACS,
        TACANOn := b.taskData.TACANOn <|> a.taskData.TACANOn,
        TACANChannel := b.taskData.TACANChannel <|> a.taskData.TACANChannel,
        TACANXY := b.taskData.TACANXY <|> a.taskData.TACANXY,
        TACANCallsign := b.taskData.TACANCallsign <|> a.taskData.TACANCallsign,
        radioFrequency := b.taskData.radioFrequency <|> a.taskData.radioFrequency,
        radioCallsign := b.taskData.radioCallsign <|> a.taskData.radioCallsign,
        radioCallsignNumber :=
          b.taskData.radioCallsignNumber <|> a.taskData.radioCallsignNumber,
        radioAMFM := b.taskData.radioAMFM <|> a.taskData.radioAMFM }
    optionsData :=
      { ROE := b.optionsData.ROE <|> a.optionsData.ROE,
        reactionToThreat :=
          b.optionsData.reactionToThreat <|> a.optionsData.reactionToThreat } }

/-- The merged update of a whole sequence, earlier updates first. -/
def mergeAll (us : List UpdateData) : UpdateData :=
  us.foldl mergeUpd {}


/-- A visibility-flag source hiding nothing. -/
def plainEnv : VisEnv :=
  { hideCoalition := fun _ => false, hideCategory := fun _ => false }

/-- A concrete partial update carrying only a latitude. -/
def upLat : UpdateData := { flightData := { latitude := some 37 } }

/-- A concrete partial update carrying only a fuel value. -/
def upFuel : UpdateData := { missionData := { fuel := some 10 } }

/-- A freshly constructed plain unit. -/
def freshUnit : Unit := mkUnit plainEnv 1 "aircraft" {}

/-- A unit that has died without ever being selected. -/
def deadUnit : Unit :=
  Unit.setData plainEnv freshUnit { baseData := { alive := some false } }

/-- A freshly constructed, then selected, alive unit. -/
def selectedUnit : Unit := freshUnit.setSelected true

end Client

namespace Manager

/-- Little-endian byte-sequence to number conversion. -/
def decodeLEBytes (l : List Nat) : Nat :=
  l.foldr (fun b acc => b + 256 * acc) 0

/-- Little-endian fixed-width encoding of a number, `k` bytes. -/
def encodeLEBytes : Nat → Nat → List Nat
  | 0, _ => []
  | k + 1, n => n % 256 :: encodeLEBytes k (n / 256)

/-- Extraction of one `k`-byte little-endian number; fails on underrun. -/
def extractNum (k : Nat) (bs : List Nat) : Option (Nat × List Nat) :=
  if k ≤ bs.length then some (decodeLEBytes (bs.take k), bs.drop k) else none

/-- Modelled from the spec: `DataExtractor.extractUInt8` (spec section 4.1) —
the cursor class itself is imported by part_002 from `server/dataextractor`,
which is not in the repository snapshot.  The cursor is the not-yet-consumed
suffix of the buffer; extraction fails with `BufferUnderrun` (`none`) past the
end. -/
def extractUInt8 (bs : List Nat) : Option (Nat × List Nat) := extractNum 1 bs

/-- Modelled from the spec: `DataExtractor.extractUInt16` (spec section 4.1). -/
def extractUInt16 (bs : List Nat) : Option (Nat × List Nat) := extractNum 2 bs

/-- Modelled from the spec: `DataExtractor.extractUInt32` (spec section 4.1);
entity IDs are 4-byte integers (spec section 6). -/
def extractUInt32 (bs : List Nat) : Option (Nat × List Nat) := extractNum 4 bs

/-- Modelled from the spec: `DataExtractor.extractUInt64` (spec section 4.1);
the global timestamp is an 8-byte integer (spec section 6). -/
def extractUInt64 (bs : List Nat) : Option (Nat × List Nat) := extractNum 8 bs

/-- The code points of a string, as wire bytes. -/
def strBytes (s : String) : List Nat := s.data.map Char.toNat

/-- Modelled from the spec: `DataExtractor.extractString` — string fields are
encoded with an explicit length prefix (spec section 6), taken here as a
2-byte integer. -/
def extractString (bs : List Nat) : Option (String × List Nat) :=
  match extractUInt16 bs with
  | none => none
  | some (n, r) =>
    if n ≤ r.length then
      some (String.mk ((r.take n).map Char.ofNat), r.drop n)
    else none

/-- 4-byte little-endian encoding (entity IDs). -/
def encodeUInt32 (n : Nat) : List Nat := encodeLEBytes 4 n

/-- 8-byte little-endian encoding (timestamps). -/
def encodeUInt64 (n : Nat) : List Nat := encodeLEBytes 8 n

/-- Length-prefixed string encoding matching `extractString`. -/
def encodeString (s : String) : List Nat :=
  encodeLEBytes 2 (strBytes s).length ++ strBytes s

/-- Modelled from the spec: the field tag of the category string in the
`DataIndexes` codec table (spec section 4.2); the table is imported by
part_002 from `constants/constants`, which is not in the repository
snapshot.  Only the distinctness of the tag values matters. -/
def DataIndexes.category : Nat := 1

/-- Modelled from the spec: the field tag of the alive flag. -/
def DataIndexes.alive : Nat := 2

/-- Modelled from the spec: the field tag of the group name. -/
def DataIndexes.groupName : Nat := 3

/-- Modelled from the spec: the field tag of the fuel value. -/
def DataIndexes.fuel : Nat := 4

/-- Modelled from the spec: the tag value closing one entity's field stream.
Spec section 4.5 requires that after one entity's fields the cursor land
exactly on the next entity ID although a single `setData` call consumes a
whole variable-length field sequence; a reserved end-of-entity tag realizes
this self-describing layout. -/
def DataIndexes.endOfData : Nat := 255

/-- A directed detection edge (spec section 3): who is seen, and how. -/
structure Contact where
  ID : Nat
  detectionMethod : Nat
  deriving DecidableEq

/-- Modelled from the spec: the wire-level entity class used by part_002
(`units/unit` import, not in the repository snapshot), restricted to the
attributes the manager reads or writes: the alive flag, group name and joined
group (spec section 3 Group), fuel, coalition, hotgroup (glossary), the
self-reported contact list, the derived detected-methods list and the
selection flag.  `group` holds the name of the joined `Group` object, `none`
while ungrouped. -/
structure Unit where
  category : String
  alive : Bool := true
  groupName : String := ""
  fuel : Nat := 0
  coalition : String := ""
  group : Option String := none
  hotgroup : Option Nat := none
  selected : Bool := false
  contacts : List Contact := []
  detectionMethods : List Nat := []
  deriving DecidableEq

/-- `Unit.getConstructor` (part_001 lines 82-89; spec section 3 closed
category set): the category strings for which a concrete entity class
exists. -/
def hasConstructor (category : String) : Bool :=
  category == "GroundUnit" || category == "Aircraft" || category == "Helicopter"
    || category == "Missile" || category == "Bomb" || category == "NavyUnit"

/-- A freshly constructed wire-level entity of the given category. -/
def mkWireUnit (category : String) : Unit := { category := category }

/-- Modelled from the spec (section 4.3): given a field tag, read exactly one
field's value using the codec table and write it into the target sub-record;
`none` on buffer underrun or on a tag outside the table. -/
def applyDatum (u : Unit) (tag : Nat) (bs : List Nat) : Option (Unit × List Nat) :=
  if tag = DataIndexes.category then
    match extractString bs with
    | some (v, r) => some ({ u with category := v }, r)
    | none => none
  else if tag = DataIndexes.alive then
    match extractUInt8 bs with
    | some (v, r) => some ({ u with alive := v != 0 }, r)
    | none => none
  else if tag = DataIndexes.groupName then
    match extractString bs with
    | some (v, r) => some ({ u with groupName := v }, r)
    | none => none
  else if tag = DataIndexes.fuel then
    match extractUInt8 bs with
    | some (v, r) => some ({ u with fuel := v }, r)
    | none => none
  else none

/-- Modelled from the spec (sections 4.3 and 4.5 step c): the wire-level
`Unit.setData(dataExtractor)` called by part_002 line 178 — consume this
entity's (tag, value) stream, applying each field, until the end-of-entity tag
is consumed and the cursor lands on the next entity ID.  A tag outside the
codec table stops decoding conservatively (spec section 4.3); an underrun
stops with the stream unconsumed.  The first argument bounds the iteration
count; every iteration consumes at least the tag byte, so the bound
`length + 1` used by `Unit.setData` never runs out before the stream does. -/
def setDataF : Nat → Unit → List Nat → Unit × List Nat
  | 0, u, bs => (u, bs)
  | fuel + 1, u, bs =>
    match bs with
    | [] => (u, [])
    | t :: rest =>
      if t = DataIndexes.endOfData then (u, rest)
      else
        match applyDatum u t rest with
        | some (u2, rest2) => setDataF fuel u2 rest2
        | none => (u, t :: rest)

/-- The wire-level `setData`: see `setDataF`. -/
def Unit.setData (u : Unit) (bs : List Nat) : Unit × List Nat :=
  setDataF (bs.length + 1) u bs

/-- Modelled from the spec (section 4.4): `setSelected` on the wire-level
entity — dead entities are never selectable. -/
def Unit.setSelected (u : Unit) (selected : Bool) : Unit :=
  if selected && !u.alive then u else { u with selected := selected }

/-- A named collection of entities sharing a group name (spec section 3);
the `Group` class is imported by part_002 from `units/group`, not in the
repository snapshot. -/
structure Group where
  name : String
  members : List Nat
  deriving DecidableEq

/-- The `UnitsManager` state (part_002 lines 27-35): the `#units` table keyed
by ID, the `#groups` table keyed by group name, and the
`#requestDetectionUpdate` dirty flag (set by the `contactsUpdated` event,
line 42).  The tables are association lists. -/
structure State where
  units : List (Nat × Unit)
  groups : List (String × Group)
  requestDetectionUpdate : Bool
  deriving DecidableEq

/-- `getUnitByID` (part_002 lines 72-77) / the `ID in this.#units` test. -/
def State.getUnit (s : State) (id : Nat) : Option Unit :=
  s.units.lookup id

/-- Writing `this.#units[ID]`: replace the entry of an existing key. -/
def State.setUnit (s : State) (id : Nat) (u : Unit) : State :=
  { s with units := s.units.map (fun p => (p.1, if p.1 = id then u else p.2)) }

/-- `addUnit` (part_002 lines 93-101): only a truthy category with a known
constructor creates an entry. -/
def State.addUnit (s : State) (id : Nat) (category : String) : State :=
  if category ≠ "" then
    if hasConstructor category then
      { s with units := s.units ++ [(id, mkWireUnit category)] }
    else s
  else s

/-- The external capabilities read by `update`: the command mode of the
mission manager (part_002 line 200), the locally-commanded coalition, and the
keys of the weapons-manager table (part_002 lines 205-206, 228-231). -/
structure Env where
  commandMode : String
  commandedCoalition : String
  weaponIDs : List Nat

/-- Modelled from the spec: the `GAME_MASTER` constant imported by part_002
from `constants/constants`; only compared for equality. -/
def GAME_MASTER : String := "Game master"

/-- Modelled from the spec: the entity belongs to the locally-commanded
side. -/
def Unit.belongsToCommandedCoalition (env : Env) (u : Unit) : Bool :=
  u.coalition == env.commandedCoalition

/-- The decode loop of `update` (part_002 lines 161-179).  Each iteration
extracts a 4-byte entity ID; a known ID delegates to the entity's `setData`;
an unknown ID reads one field tag, and either constructs the entity from a
category field and then delegates to `setData`, or aborts the loop returning
`true` (the `return updateTime` of line 174).  When the category string has no
constructor, `this.#units[ID]?.setData` (line 178) is skipped and the cursor
is left where the category string ended.  An extraction past the buffer end
also ends the tick (`true`).  The first argument bounds the iteration count;
every iteration consumes at least the 4 ID bytes, so the bound `length + 1`
used by `decodeLoop` never runs out before the buffer does. -/
def decodeLoopF : Nat → State → List Nat → State × Bool
  | 0, s, _ => (s, false)
  | fuel + 1, s, bs =>
    match bs with
    | [] => (s, false)
    | _ :: _ =>
      match extractUInt32 bs with
      | none => (s, true)
      | some (id, r1) =>
        match s.getUnit id with
        | some u =>
          let p := u.setData r1
          decodeLoopF fuel (s.setUnit id p.1) p.2
        | none =>
          match extractUInt8 r1 with
          | none => (s, true)
          | some (tag, r2) =>
            if tag = DataIndexes.category then
              match extractString r2 with
              | none => (s, true)
              | some (cat, r3) =>
                let s2 := s.addUnit id cat
                match s2.getUnit id with
                | some u =>
                  let p := u.setData r3
                  decodeLoopF fuel (s2.setUnit id p.1) p.2
                | none => decodeLoopF fuel s2 r3
            else (s, true)

/-- The decode loop (part_002 lines 161-179): see `decodeLoopF`. -/
def decodeLoop (s : State) (bs : List Nat) : State × Bool :=
  decodeLoopF (bs.length + 1) s bs

/-- One iteration of the group-assignment loop (part_002 lines 182-194) for
one unit ID: a non-empty group name creates the `Group` on demand, and a
still-ungrouped unit is added to it.  `Group.addMember` is modelled from the
spec (section 3): it appends the unit to the member list and records the
joined group on the unit. -/
def groupStep (s : State) (id : Nat) : State :=
  match s.getUnit id with
  | none => s
  | some u =>
    if u.groupName ≠ "" then
      let s1 :=
        if (s.groups.lookup u.groupName).isNone then
          { s with groups :=
              s.groups ++ [(u.groupName, { name := u.groupName, members := [] })] }
        else s
      if u.group = none then
        let s2 :=
          { s1 with groups := s1.groups.map (fun (p : String × Group) =>
              (p.1, if p.1 = u.groupName then
                      { p.2 with members := p.2.members ++ [id] }
                    else p.2)) }
        s2.setUnit id { u with group := some u.groupName }
      else s1
    else s

/-- The group-assignment step of `update` (part_002 lines 181-195). -/
def updateGroups (s : State) : State :=
  (s.units.map Prod.fst).foldl groupStep s

/-- One push of the detection-inversion loop (part_002 lines 213-217): one
contact of one observer is recorded under the target's key when the target has
a dictionary entry and the method is not yet recorded. -/
def contactStep (keys : List Nat) (f : Nat → List Nat) (c : Contact) : Nat → List Nat :=
  if keys.contains c.ID && !((f c.ID).contains c.detectionMethod) then
    fun x => if x = c.ID then f c.ID ++ [c.detectionMethod] else f x
  else f

/-- One observer of the detection-inversion loop (part_002 lines 209-219): an
alive unit of the commanded coalition contributes all its contacts. -/
def unitStep (env : Env) (keys : List Nat) (f : Nat → List Nat)
    (p : Nat × Unit) : Nat → List Nat :=
  if p.2.alive && p.2.belongsToCommandedCoalition env then
    p.2.contacts.foldl (contactStep keys) f
  else f

/-- The filled detection-method dictionary (part_002 lines 201-219),
initialized empty for every unit and weapon key. -/
def detectionDict (env : Env) (s : State) : Nat → List Nat :=
  s.units.foldl (unitStep env (s.units.map Prod.fst ++ env.weaponIDs))
    (fun _ => [])

/-- The detection-derivation step of `update` (part_002 lines 200-234): the
dictionary is written back into every unit and the dirty flag is cleared.
(The write-back into the weapons, lines 228-231, mutates the external weapons
manager only.) -/
def detectionStep (env : Env) (s : State) : State :=
  { s with
    units := s.units.map (fun p =>
      (p.1, { p.2 with detectionMethods := detectionDict env s p.1 })),
    requestDetectionUpdate := false }

/-- `UnitsManager.update` (part_002 lines 152-243): read the 8-byte timestamp,
run the decode loop; an abort returns the timestamp immediately (line 174),
otherwise the group-assignment step runs, then — when the dirty flag is set
and the command mode is not game master — the detection step; the timestamp is
returned.  (The `drawLines` loop of lines 237-240 only renders.)  `none`
models the uncaught underrun of the initial timestamp extraction. -/
def update (env : Env) (s : State) (buffer : List Nat) : Option (Nat × State) :=
  match extractUInt64 buffer with
  | none => none
  | some (updateTime, r) =>
    let p := decodeLoop s r
    if p.2 then some (updateTime, p.1)
    else
      let s2 := updateGroups p.1
      let s3 :=
        if s2.requestDetectionUpdate && !(env.commandMode == GAME_MASTER) then
          detectionStep env s2
        else s2
      some (updateTime, s3)

/-- `getUnitsByHotgroup` (part_002 lines 84-86): the units that are alive and
whose hotgroup equals the requested one. -/
def getUnitsByHotgroup (s : State) (hotgroup : Nat) : List Unit :=
  (s.units.map Prod.snd).filter (fun u =>
    u.alive && (match u.hotgroup with
                | some g => g == hotgroup
                | none => false))

/-- The IDs of the units returned by `getUnitsByHotgroup`; the code mutates
the returned unit objects in place, the pure model updates the table at these
keys. -/
def idsByHotgroup (s : State) (hotgroup : Nat) : List Nat :=
  (s.units.filter (fun p =>
    p.2.alive && (match p.2.hotgroup with
                  | some g => g == hotgroup
                  | none => false))).map Prod.fst

/-- `deselectAllUnits` (part_002 lines 326-330). -/
def deselectAllUnits (s : State) : State :=
  { s with units := s.units.map (fun p => (p.1, p.2.setSelected false)) }

/-- `selectUnitsByHotgroup` (part_002 lines 276-283): optionally deselect
everything, then `setSelected(true)` on every unit of the hotgroup. -/
def selectUnitsByHotgroup (s : State) (hotgroup : Nat) (deselectAll : Bool) : State :=
  let s1 := if deselectAll then deselectAllUnits s else s
  (idsByHotgroup s1 hotgroup).foldl
    (fun st id =>
      match st.getUnit id with
      | some u => st.setUnit id (u.setSelected true)
      | none => st)
    s1

/-- A concrete environment: a blue commander client with no weapons. -/
def exEnv : Env :=
  { commandMode := "Blue commander", commandedCoalition := "blue",
    weaponIDs := [] }

/-- A concrete existing unit: alive, fuel 50, group name reported but not yet
joined to any group. -/
def exUnit5 : Unit := { category := "Aircraft", groupName := "Alpha", fuel := 50 }

/-- A concrete manager state holding only `exUnit5` under ID 5. -/
def exState : State :=
  { units := [(5, exUnit5)], groups := [], requestDetectionUpdate := false }

/-- A buffer whose first record carries an unknown ID 7 followed by a
non-category tag: timestamp 100, ID 7, the alive tag. -/
def abortBuf : List Nat :=
  encodeUInt64 100 ++ encodeUInt32 7 ++ [DataIndexes.alive]

/-- A buffer introducing ID 7 with the unrecognized category string "Dragon",
followed by a fuel update for the existing unit 5. -/
def unknownCatBuf : List Nat :=
  encodeUInt64 100 ++ encodeUInt32 7 ++ [DataIndexes.category]
    ++ encodeString "Dragon" ++ [DataIndexes.endOfData]
    ++ encodeUInt32 5 ++ [DataIndexes.fuel, 10, DataIndexes.endOfData]

/-- A concrete unit carrying a stale derived detection-method list. -/
def staleUnit : Unit := { category := "Aircraft", detectionMethods := [1] }

/-- A concrete state with the detection dirty flag set and no alive commanded
observer reporting any contact. -/
def staleState : State :=
  { units := [(9, staleUnit)], groups := [], requestDetectionUpdate := true }

/-- A game-master environment. -/
def gmEnv : Env :=
  { commandMode := GAME_MASTER, commandedCoalition := "blue", weaponIDs := [] }

/-- A second ungrouped unit reporting the same group name "Alpha". -/
def exUnit6 : Unit := { category := "Aircraft", groupName := "Alpha" }

/-- A state with two ungrouped units both reporting group name "Alpha". -/
def twoUnitState : State :=
  { units := [(5, exUnit5), (6, exUnit6)], groups := [],
    requestDetectionUpdate := false }

/-- A unit already joined to the group "Old" while reporting "Alpha". -/
def groupedUnit : Unit :=
  { category := "Aircraft", groupName := "Alpha", group := some "Old" }

/-- A state holding only the already-grouped unit under ID 8. -/
def groupedState : State :=
  { units := [(8, groupedUnit)], groups := [], requestDetectionUpdate := false }

/-- An alive blue observer reporting three contacts on ID 9 (method 1 twice
and method 2 once). -/
def obsUnit : Unit :=
  { category := "Aircraft", coalition := "blue",
    contacts := [{ ID := 9, detectionMethod := 1 },
                 { ID := 9, detectionMethod := 1 },
                 { ID := 9, detectionMethod := 2 }] }

/-- A target unit carrying a stale derived detection-method list. -/
def targetUnit : Unit := { category := "Aircraft", detectionMethods := [7] }

/-- A dirty state with the observer and the target. -/
def detState : State :=
  { units := [(1, obsUnit), (9, targetUnit)], groups := [],
    requestDetectionUpdate := true }

/-- Units for the hotgroup claims: two in hotgroup 4 (one dead), one in
hotgroup 2, all unselected. -/
def hotState : State :=
  { units :=
      [(3, { category := "Aircraft", hotgroup := some 4 }),
       (4, { category := "Aircraft", alive := false, hotgroup := some 4 }),
       (5, { category := "Aircraft", hotgroup := some 2 })],
    groups := [], requestDetectionUpdate := false }

end Manager

namespace Client

theorem opt_getD_orElse {α : Type} (a b : Option α) (x : α) :
    (b <|> a).getD x = b.getD (a.getD x) := by
  cases b <;> rfl

theorem opt_getD_comm {α : Type} (a b : Option α)
    (h : (a.isNone || b.isNone) = true) (x : α) :
    b.getD (a.getD x) = a.getD (b.getD x) := by
  rcases Bool.or_eq_true_iff.mp h with h | h
  · rw [Option.isNone_iff_eq_none.mp h]; rfl
  · rw [Option.isNone_iff_eq_none.mp h]; rfl

theorem opt_orElse_assoc {α : Type} (a b c : Option α) :
    ((a <|> b) <|> c) = (a <|> (b <|> c)) := by
  cases a <;> rfl

theorem opt_orElse_none {α : Type} (a : Option α) : (a <|> none) = a := by
  cases a <;> rfl

theorem mergeUnitData_mergeUpd (d : UnitData) (a b : UpdateData) :
    mergeUnitData (mergeUnitData d a) b = mergeUnitData d (mergeUpd a b) := by
  simp only [mergeUnitData, mergeUpd, mergeBaseData, mergeFlightData,
    mergeMissionData, mergeFormationData, mergeTaskData, mergeOptionsData,
    UnitData.mk.injEq, BaseData.mk.injEq, FlightData.mk.injEq,
    MissionData.mk.injEq, FormationData.mk.injEq, TaskData.mk.injEq,
    OptionsData.mk.injEq, opt_getD_orElse]

theorem mergeUnitData_empty (d : UnitData) : mergeUnitData d {} = d := by
  rfl

theorem mergeUpd_empty_left (a : UpdateData) : mergeUpd {} a = a := by
  simp only [mergeUpd, opt_orElse_none]

theorem mergeUpd_empty_right (a : UpdateData) : mergeUpd a {} = a := by
  rfl

theorem mergeUnitData_comm (a b : UpdateData) (h : UpdateDisjoint a b)
    (d : UnitData) :
    mergeUnitData (mergeUnitData d a) b = mergeUnitData (mergeUnitData d b) a := by
  unfold UpdateDisjoint at h
  simp only [Bool.and_eq_true, BaseDisjoint, FlightDisjoint, MissionDisjoint,
    FormationDisjoint, TaskDisjoint, OptionsDisjoint] at h
  obtain ⟨⟨⟨⟨⟨hB, hF⟩, hM⟩, hFo⟩, hT⟩, hO⟩ := h
  obtain ⟨⟨⟨⟨⟨b1, b2⟩, b3⟩, b4⟩, b5⟩, b6⟩ := hB
  obtain ⟨⟨⟨⟨f1, f2⟩, f3⟩, f4⟩, f5⟩ := hF
  obtain ⟨⟨⟨⟨⟨m1, m2⟩, m3⟩, m4⟩, m5⟩, m6⟩ := hM
  obtain ⟨⟨⟨⟨⟨⟨⟨⟨⟨⟨⟨⟨⟨⟨t1, t2⟩, t3⟩, t4⟩, t5⟩, t6⟩, t7⟩, t8⟩, t9⟩, t10⟩,
    t11⟩, t12⟩, t13⟩, t14⟩, t15⟩ := hT
  obtain ⟨o1, o2⟩ := hO
  simp only [mergeUnitData, mergeBaseData, mergeFlightData, mergeMissionData,
    mergeFormationData, mergeTaskData, mergeOptionsData, UnitData.mk.injEq,
    BaseData.mk.injEq, FlightData.mk.injEq, MissionData.mk.injEq,
    FormationData.mk.injEq, TaskData.mk.injEq, OptionsData.mk.injEq]
  exact ⟨⟨opt_getD_comm _ _ b1 _, opt_getD_comm _ _ b2 _, opt_getD_comm _ _ b3 _,
      opt_getD_comm _ _ b4 _, opt_getD_comm _ _ b5 _, opt_getD_comm _ _ b6 _⟩,
    ⟨opt_getD_comm _ _ f1 _, opt_getD_comm _ _ f2 _, opt_getD_comm _ _ f3 _,
      opt_getD_comm _ _ f4 _, opt_getD_comm _ _ f5 _⟩,
    ⟨opt_getD_comm _ _ m1 _, opt_getD_comm _ _ m2 _, opt_getD_comm _ _ m3 _,
      opt_getD_comm _ _ m4 _, opt_getD_comm _ _ m5 _, opt_getD_comm _ _ m6 _⟩,
    opt_getD_comm _ _ hFo _,
    ⟨opt_getD_comm _ _ t1 _, opt_getD_comm _ _ t2 _, opt_getD_comm _ _ t3 _,
      opt_getD_comm _ _ t4 _, opt_getD_comm _ _ t5 _, opt_getD_comm _ _ t6 _,
      opt_getD_comm _ _ t7 _, opt_getD_comm _ _ t8 _, opt_getD_comm _ _ t9 _,
      opt_getD_comm _ _ t10 _, opt_getD_comm _ _ t11 _, opt_getD_comm _ _ t12 _,
      opt_getD_comm _ _ t13 _, opt_getD_comm _ _ t14 _, opt_getD_comm _ _ t15 _⟩,
    ⟨opt_getD_comm _ _ o1 _, opt_getD_comm _ _ o2 _⟩⟩

theorem mergeUpd_assoc (a b c : UpdateData) :
    mergeUpd (mergeUpd a b) c = mergeUpd a (mergeUpd b c) := by
  simp only [mergeUpd, UpdateData.mk.injEq, BaseDataU.mk.injEq,
    FlightDataU.mk.injEq, MissionDataU.mk.injEq, FormationDataU.mk.injEq,
    TaskDataU.mk.injEq, OptionsDataU.mk.injEq, opt_orElse_assoc]

theorem foldl_mergeUpd_eq (us : List UpdateData) (a : UpdateData) :
    us.foldl mergeUpd a = mergeUpd a (mergeAll us) := by
  induction us generalizing a with
  | nil => simp only [List.foldl_nil, mergeAll, mergeUpd_empty_right]
  | cons b us ih =>
      have h1 : mergeAll (b :: us) = mergeUpd b (mergeAll us) := by
        simp only [mergeAll, List.foldl_cons, mergeUpd_empty_left]
        exact ih b
      rw [List.foldl_cons, ih (mergeUpd a b), h1, mergeUpd_assoc]

theorem foldl_mergeUnitData_eq (us : List UpdateData) (d : UnitData) :
    us.foldl mergeUnitData d = mergeUnitData d (mergeAll us) := by
  induction us generalizing d with
  | nil => simp only [List.foldl_nil, mergeAll, mergeUnitData_empty]
  | cons b us ih =>
      have h1 : mergeAll (b :: us) = mergeUpd b (mergeAll us) := by
        simp only [mergeAll, List.foldl_cons, mergeUpd_empty_left]
        exact foldl_mergeUpd_eq us b
      rw [List.foldl_cons, ih, h1, ← mergeUnitData_mergeUpd]

theorem setHidden_hidden (u : Unit) (h : Bool) : (u.setHidden h).hidden = h := by
  unfold Unit.setHidden
  dsimp only
  split <;> split <;> rfl

theorem setHidden_keeps (u : Unit) (h : Bool) :
    (u.setHidden h).data = u.data ∧ (u.setHidden h).selected = u.selected
      ∧ (u.setHidden h).selectable = u.selectable := by
  unfold Unit.setHidden
  dsimp only
  split <;> split <;> exact ⟨rfl, rfl, rfl⟩

theorem setSelected_keeps (u : Unit) (b : Bool) :
    (u.setSelected b).data = u.data ∧ (u.setSelected b).hidden = u.hidden
      ∧ (u.setSelected b).selectable = u.selectable := by
  unfold Unit.setSelected
  split <;> exact ⟨rfl, rfl, rfl⟩

theorem updateMarker_keeps (env : VisEnv) (u : Unit) :
    (u.updateMarker env).data = u.data
      ∧ (u.updateMarker env).selected = u.selected
      ∧ (u.updateMarker env).selectable = u.selectable := by
  unfold Unit.updateMarker Unit.updateVisibility
  exact ⟨(setHidden_keeps _ _).1, (setHidden_keeps _ _).2.1,
    (setHidden_keeps _ _).2.2⟩

theorem setData_data (env : VisEnv) (u : Unit) (d : UpdateData) :
    (Unit.setData env u d).data = mergeUnitData u.data d := by
  unfold Unit.setData
  dsimp only
  split
  · rw [(updateMarker_keeps _ _).1, (setSelected_keeps _ _).1]
  · rw [(setSelected_keeps _ _).1]

theorem setSelected_selected (u : Unit) (b : Bool) :
    (u.setSelected b).selected =
      if (u.data.baseData.alive || !b) && u.selectable && (u.selected != b)
      then b else u.selected := by
  unfold Unit.setSelected
  split <;> simp_all

theorem setData_selected_false (env : VisEnv) (u : Unit) (d : UpdateData)
    (h : u.selected = false) : (Unit.setData env u d).selected = false := by
  unfold Unit.setData
  dsimp only
  split
  · rw [(updateMarker_keeps _ _).2.1, setSelected_selected]
    simp [h]
  · rw [setSelected_selected]
    simp [h]

/-- C3: a field of any sub-record is overwritten by `setData` exactly when the
incoming update carries that field — the resulting value of every one of the
34 wire fields is the update's value when present and the previous value when
absent — and, in particular, an update carrying only a new fuel value sets the
fuel and leaves every other field of the unit data unchanged. -/
theorem client_setData_merges_only_present_fields (env : VisEnv) (u : Unit)
    (d : UpdateData) (x : ℚ) :
    ((Unit.setData env u d).data.baseData.AI = d.baseData.AI.getD u.data.baseData.AI)
    ∧ ((Unit.setData env u d).data.baseData.name = d.baseData.name.getD u.data.baseData.name)
    ∧ ((Unit.setData env u d).data.baseData.unitName = d.baseData.unitName.getD u.data.baseData.unitName)
    ∧ ((Unit.setData env u d).data.baseData.groupName = d.baseData.groupName.getD u.data.baseData.groupName)
    ∧ ((Unit.setData env u d).data.baseData.alive = d.baseData.alive.getD u.data.baseData.alive)
    ∧ ((Unit.setData env u d).data.baseData.category = d.baseData.category.getD u.data.baseData.category)
    ∧ ((Unit.setData env u d).data.flightData.latitude = d.flightData.latitude.getD u.data.flightData.latitude)
    ∧ ((Unit.setData env u d).data.flightData.longitude = d.flightData.longitude.getD u.data.flightData.longitude)
    ∧ ((Unit.setData env u d).data.flightData.altitude = d.flightData.altitude.getD u.data.flightData.altitude)
    ∧ ((Unit.setData env u d).data.flightData.heading = d.flightData.heading.getD u.data.flightData.heading)
    ∧ ((Unit.setData env u d).data.flightData.speed = d.flightData.speed.getD u.data.flightData.speed)
    ∧ ((Unit.setData env u d).data.missionData.fuel = d.missionData.fuel.getD u.data.missionData.fuel)
    ∧ ((Unit.setData env u d).data.missionData.flags = d.missionData.flags.getD u.data.missionData.flags)
    ∧ ((Unit.setData env u d).data.missionData.ammo = d.missionData.ammo.getD u.data.missionData.ammo)
    ∧ ((Unit.setData env u d).data.missionData.targets = d.missionData.targets.getD u.data.missionData.targets)
    ∧ ((Unit.setData env u d).data.missionData.hasTask = d.missionData.hasTask.getD u.data.missionData.hasTask)
    ∧ ((Unit.setData env u d).data.missionData.coalition = d.missionData.coalition.getD u.data.missionData.coalition)
    ∧ ((Unit.setData env u d).data.formationData.leaderID = d.formationData.leaderID.getD u.data.formationData.leaderID)
    ∧ ((Unit.setData env u d).data.taskData.currentState = d.taskData.currentState.getD u.data.taskData.currentState)
    ∧ ((Unit.setData env u d).data.taskData.currentTask = d.taskData.currentTask.getD u.data.taskData.currentTask)
    ∧ ((Unit.setData env u d).data.taskData.activePath = d.taskData.activePath.getD u.data.taskData.activePath)
    ∧ ((Unit.setData env u d).data.taskData.targetSpeed = d.taskData.targetSpeed.getD u.data.taskData.targetSpeed)
    ∧ ((Unit.setData env u d).data.taskData.targetAltitude = d.taskData.targetAltitude.getD u.data.taskData.targetAltitude)
    ∧ ((Unit.setData env u d).data.taskData.isTanker = d.taskData.isTanker.getD u.data.taskData.isTanker)
    ∧ ((Unit.setData env u d).data.taskData.isAWACS = d.taskData.isAWACS.getD u.data.taskData.isAWACS)
    ∧ ((Unit.setData env u d).data.taskData.TACANOn = d.taskData.TACANOn.getD u.data.taskData.TACANOn)
    ∧ ((Unit.setData env u d).data.taskData.TACANChannel = d.taskData.TACANChannel.getD u.data.taskData.TACANChannel)
    ∧ ((Unit.setData env u d).data.taskData.TACANXY = d.taskData.TACANXY.getD u.data.taskData.TACANXY)
    ∧ ((Unit.setData env u d).data.taskData.TACANCallsign = d.taskData.TACANCallsign.getD u.data.taskData.TACANCallsign)
    ∧ ((Unit.setData env u d).data.taskData.radioFrequency = d.taskData.radioFrequency.getD u.data.taskData.radioFrequency)
    ∧ ((Unit.setData env u d).data.taskData.radioCallsign = d.taskData.radioCallsign.getD u.data.taskData.radioCallsign)
    ∧ ((Unit.setData env u d).data.taskData.radioCallsignNumber = d.taskData.radioCallsignNumber.getD u.data.taskData.radioCallsignNumber)
    ∧ ((Unit.setData env u d).data.taskData.radioAMFM = d.taskData.radioAMFM.getD u.data.taskData.radioAMFM)
    ∧ ((Unit.setData env u d).data.optionsData.ROE = d.optionsData.ROE.getD u.data.optionsData.ROE)
    ∧ ((Unit.setData env u d).data.optionsData.reactionToThreat = d.optionsData.reactionToThreat.getD u.data.optionsData.reactionToThreat)
    ∧ (Unit.setData env u (fuelOnly x)).data
        = { u.data with missionData := { u.data.missionData with fuel := x } } := by
  simp only [setData_data]
  exact ⟨rfl, rfl, rfl, rfl, rfl, rfl, rfl, rfl, rfl, rfl, rfl, rfl, rfl, rfl, rfl, rfl, rfl, rfl, rfl, rfl, rfl, rfl, rfl, rfl, rfl, rfl, rfl, rfl, rfl, rfl, rfl, rfl, rfl, rfl, rfl, rfl⟩

/-- C4: starting from a freshly created unit, applying pairwise-disjoint
partial updates one at a time via `setData`, in any order, produces the same
final unit data as one `setData` with the merged update. -/
theorem client_disjoint_updates_merge (env : VisEnv) (ID : Nat) (mc : String)
    (d0 : UpdateData) (us vs : List UpdateData)
    (hd : us.Pairwise UpdateDisjoint) (hp : us.Perm vs) :
    (vs.foldl (Unit.setData env) (mkUnit env ID mc d0)).data
      = (Unit.setData env (mkUnit env ID mc d0) (mergeAll us)).data := by
  have hfold : ∀ (w : List UpdateData) (u : Unit),
      (w.foldl (Unit.setData env) u).data = w.foldl mergeUnitData u.data := by
    intro w
    induction w with
    | nil => intro u; rfl
    | cons a w ih =>
        intro u
        rw [List.foldl_cons, List.foldl_cons, ih, setData_data]
  rw [hfold, setData_data]
  have hS : us.Pairwise (fun x y => ∀ z,
      mergeUnitData (mergeUnitData z x) y = mergeUnitData (mergeUnitData z y) x) :=
    hd.imp (fun h z => mergeUnitData_comm _ _ h z)
  have hsymm : Symmetric (fun x y : UpdateData => ∀ z,
      mergeUnitData (mergeUnitData z x) y = mergeUnitData (mergeUnitData z y) x) :=
    fun x y h z => (h z).symm
  have hforall := hS.forall hsymm
  have hcomm : ∀ x ∈ us, ∀ y ∈ us, ∀ z,
      mergeUnitData (mergeUnitData z x) y = mergeUnitData (mergeUnitData z y) x := by
    intro x hx y hy z
    by_cases hxy : x = y
    · subst hxy; rfl
    · exact hforall hx hy hxy z
  rw [← hp.foldl_eq' hcomm]
  exact foldl_mergeUnitData_eq us (mkUnit env ID mc d0).data

/-- Witness for C4 at concrete inputs: a latitude-only and a fuel-only update
are disjoint, and applying them in the swapped order equals applying the
merged update. -/
theorem client_disjoint_updates_merge_witness :
    ([upLat, upFuel] : List UpdateData).Pairwise UpdateDisjoint
    ∧ ([upLat, upFuel] : List UpdateData).Perm [upFuel, upLat]
    ∧ ([upFuel, upLat].foldl (Unit.setData plainEnv) (mkUnit plainEnv 1 "aircraft" {})).data
        = (Unit.setData plainEnv (mkUnit plainEnv 1 "aircraft" {})
            (mergeAll [upLat, upFuel])).data :=
  ⟨by decide, by decide,
    client_disjoint_updates_merge plainEnv 1 "aircraft" {} [upLat, upFuel]
      [upFuel, upLat] (by decide) (by decide)⟩

/-- C5: a dead unit is never selected by `setSelected true`; a weapon
(`Missile`, `Bomb`), whose constructor clears `selectable`, is never selected
by `setSelected true`; and a partial update that sets `alive` to false on a
previously selected, previously alive, selectable unit leaves the unit
deselected without any explicit deselect call. -/
theorem client_dead_or_weapon_never_selected :
    (∀ u : Unit, u.selected = false → u.data.baseData.alive = false →
      (u.setSelected true).selected = false)
    ∧ (∀ (env : VisEnv) (ID : Nat) (d : UpdateData),
        ((mkMissile env ID d).setSelected true).selected = false
        ∧ ((mkBomb env ID d).setSelected true).selected = false)
    ∧ (∀ (env : VisEnv) (u : Unit) (d : UpdateData),
        u.selected = true → u.data.baseData.alive = true →
        u.selectable = true → d.baseData.alive = some false →
        (Unit.setData env u d).selected = false) := by
  refine ⟨?_, ?_, ?_⟩
  · intro u hsel halive
    rw [setSelected_selected]
    simp [hsel, halive]
  · intro env ID d
    have h1 : (mkUnit env ID "missile" d).selected = false :=
      setData_selected_false env _ d rfl
    have h2 : (mkUnit env ID "bomb" d).selected = false :=
      setData_selected_false env _ d rfl
    constructor <;>
    · rw [setSelected_selected]
      simp [mkMissile, mkBomb, mkWeapon, h1, h2]
  · intro env u d hsel halive hselectable hd
    have halive2 : (mergeUnitData u.data d).baseData.alive = false := by
      simp [mergeUnitData, mergeBaseData, hd]
    unfold Unit.setData
    dsimp only
    split
    · rw [(updateMarker_keeps _ _).2.1, setSelected_selected]
      simp [hsel, halive2, hselectable]
    · rw [setSelected_selected]
      simp [hsel, halive2, hselectable]

/-- Witness for C5 at concrete inputs: the dead unselected unit stays
unselected, a concrete missile and bomb stay unselected, and killing the
selected fresh unit deselects it. -/
theorem client_dead_or_weapon_never_selected_witness :
    deadUnit.selected = false ∧ deadUnit.data.baseData.alive = false
    ∧ ((deadUnit.setSelected true).selected = false)
    ∧ (((mkMissile plainEnv 2 {}).setSelected true).selected = false
        ∧ ((mkBomb plainEnv 2 {}).setSelected true).selected = false)
    ∧ selectedUnit.selected = true ∧ selectedUnit.data.baseData.alive = true
    ∧ selectedUnit.selectable = true
    ∧ (Unit.setData plainEnv selectedUnit
        { baseData := { alive := some false } }).selected = false :=
  ⟨by decide, by decide,
    client_dead_or_weapon_never_selected.1 deadUnit (by decide) (by decide),
    client_dead_or_weapon_never_selected.2.1 plainEnv 2 {},
    by decide, by decide, by decide,
    client_dead_or_weapon_never_selected.2.2 plainEnv selectedUnit
      { baseData := { alive := some false } } (by decide) (by decide)
      (by decide) (by decide)⟩

/-- C9: `updateVisibility` hides a unit exactly when the coalition-hide flag
of its coalition is set, or the category-hide flag of its marker category is
set, or it is not alive; when none of these hold the unit is not hidden. -/
theorem client_updateVisibility_hidden_iff (env : VisEnv) (u : Unit) :
    ((u.updateVisibility env).hidden = true ↔
      (env.hideCoalition u.data.missionData.coalition = true
        ∨ env.hideCategory u.markerCategory = true
        ∨ u.data.baseData.alive = false)) := by
  unfold Unit.updateVisibility
  rw [setHidden_hidden]
  simp [Bool.or_eq_true, or_assoc]

end Client

namespace Manager

theorem lookup_map_keyed {α β : Type} [BEq α] [LawfulBEq α]
    (l : List (α × β)) (g : α → β → β) (a : α) :
    (l.map (fun p => (p.1, g p.1 p.2))).lookup a = (l.lookup a).map (g a) := by
  induction l with
  | nil => rfl
  | cons p l ih =>
      obtain ⟨k, v⟩ := p
      simp only [List.map_cons, List.lookup_cons]
      cases hb : a == k with
      | true =>
          simp only [hb]
          rw [eq_of_beq hb]
          rfl
      | false => simpa only [hb] using ih

theorem lookup_append_some {α β : Type} [BEq α] (l l' : List (α × β)) (a : α)
    (b : β) (h : l.lookup a = some b) : (l ++ l').lookup a = some b := by
  induction l with
  | nil => simp at h
  | cons p l ih =>
      obtain ⟨k, v⟩ := p
      simp only [List.lookup_cons] at h
      simp only [List.cons_append, List.lookup_cons]
      cases hb : a == k <;> simp only [hb] at h ⊢
      · exact ih h
      · exact h

theorem lookup_append_none {α β : Type} [BEq α] (l l' : List (α × β)) (a : α)
    (h : l.lookup a = none) : (l ++ l').lookup a = l'.lookup a := by
  induction l with
  | nil => rfl
  | cons p l ih =>
      obtain ⟨k, v⟩ := p
      simp only [List.lookup_cons] at h
      simp only [List.cons_append, List.lookup_cons]
      cases hb : a == k <;> simp only [hb] at h ⊢
      · exact ih h
      · exact absurd h (by simp)

theorem lookup_mem {α β : Type} [BEq α] [LawfulBEq α] (l : List (α × β))
    (a : α) (b : β) (h : l.lookup a = some b) : (a, b) ∈ l := by
  induction l with
  | nil => simp at h
  | cons p l ih =>
      obtain ⟨k, v⟩ := p
      simp only [List.lookup_cons] at h
      cases hb : a == k <;> simp only [hb] at h
      · exact List.mem_cons_of_mem _ (ih h)
      · have hv : v = b := by injection h
        have hak : a = k := eq_of_beq hb
        subst hv
        subst hak
        exact List.mem_cons_self _ _

theorem lookup_mem_keys {α β : Type} [BEq α] [LawfulBEq α] (l : List (α × β))
    (a : α) (b : β) (h : l.lookup a = some b) : a ∈ l.map Prod.fst :=
  List.mem_map.mpr ⟨(a, b), lookup_mem l a b h, rfl⟩

theorem mem_keys_lookup {α β : Type} [BEq α] [LawfulBEq α] (l : List (α × β))
    (a : α) (h : a ∈ l.map Prod.fst) : ∃ b, l.lookup a = some b := by
  induction l with
  | nil => simp at h
  | cons p l ih =>
      obtain ⟨k, v⟩ := p
      simp only [List.map_cons, List.mem_cons] at h
      simp only [List.lookup_cons]
      cases hb : a == k
      · simp only [hb]
        rcases h with h | h
        · exact absurd (beq_iff_eq.mpr h) (by simp [hb])
        · exact ih h
      · exact ⟨v, rfl⟩

theorem nodup_lookup {α β : Type} [BEq α] [LawfulBEq α] (l : List (α × β))
    (a : α) (b : β) (hn : (l.map Prod.fst).Nodup) (hm : (a, b) ∈ l) :
    l.lookup a = some b := by
  induction l with
  | nil => simp at hm
  | cons p l ih =>
      obtain ⟨k, v⟩ := p
      simp only [List.map_cons, List.nodup_cons] at hn
      simp only [List.mem_cons] at hm
      simp only [List.lookup_cons]
      rcases hm with hm | hm
      · injection hm with h1 h2
        subst h1
        subst h2
        simp
      · cases hb : a == k
        · simp only [hb]
          exact ih hn.2 hm
        · exfalso
          have hak : a = k := eq_of_beq hb
          subst hak
          exact hn.1 (List.mem_map.mpr ⟨(a, b), hm, rfl⟩)

theorem encodeLEBytes_length (k n : Nat) : (encodeLEBytes k n).length = k := by
  induction k generalizing n with
  | zero => rfl
  | succ k ih => simp [encodeLEBytes, ih]

theorem decodeLEBytes_encodeLEBytes (k n : Nat) :
    decodeLEBytes (encodeLEBytes k n) = n % 256 ^ k := by
  induction k generalizing n with
  | zero => simp [encodeLEBytes, decodeLEBytes, Nat.mod_one]
  | succ k ih =>
      simp only [encodeLEBytes, decodeLEBytes, List.foldr_cons]
      have h1 : List.foldr (fun b acc => b + 256 * acc) 0 (encodeLEBytes k (n / 256))
          = (n / 256) % 256 ^ k := ih (n / 256)
      rw [h1, pow_succ, mul_comm (256 ^ k) 256, Nat.mod_mul]

theorem extractNum_encode_append (k n : Nat) (rest : List Nat)
    (h : n < 256 ^ k) :
    extractNum k (encodeLEBytes k n ++ rest) = some (n, rest) := by
  unfold extractNum
  have hl : (encodeLEBytes k n).length = k := encodeLEBytes_length k n
  have hlen : k ≤ (encodeLEBytes k n ++ rest).length := by
    simp [hl]
  rw [if_pos hlen, List.take_left' hl, List.drop_left' hl,
    decodeLEBytes_encodeLEBytes, Nat.mod_eq_of_lt h]

/-- C1: when the decode loop reads an entity ID that is not in the units table
and the following one-byte field tag is not the category tag, the loop aborts
with the table exactly as reached (no entity created for the new ID), and
`update` returns immediately with the already-read timestamp and that table,
performing no further step. -/
theorem manager_unknown_id_without_category_aborts (s : State)
    (bytes r1 r2 : List Nat) (id tag ts : Nat)
    (h1 : extractUInt32 bytes = some (id, r1))
    (h2 : s.getUnit id = none)
    (h3 : extractUInt8 r1 = some (tag, r2))
    (h4 : tag ≠ DataIndexes.category)
    (hts : ts < 2 ^ 64) :
    decodeLoop s bytes = (s, true)
    ∧ ∀ env : Env, update env s (encodeUInt64 ts ++ bytes) = some (ts, s) := by
  have habort : decodeLoop s bytes = (s, true) := by
    cases bytes with
    | nil => simp [extractUInt32, extractNum] at h1
    | cons b bs =>
        simp only [decodeLoop, decodeLoopF, List.length_cons, h1, h2, h3]
        rw [if_neg h4]
  refine ⟨habort, fun env => ?_⟩
  unfold update
  have h64 : extractUInt64 (encodeUInt64 ts ++ bytes) = some (ts, bytes) := by
    unfold extractUInt64 encodeUInt64
    exact extractNum_encode_append 8 ts bytes hts
  rw [h64]
  simp [habort]

/-- Witness for C1 at concrete inputs: in a state holding only unit 5, a
buffer introducing the unknown ID 7 followed by the alive tag aborts the loop
and `update` returns timestamp 100 with the table untouched. -/
theorem manager_unknown_id_without_category_aborts_witness :
    decodeLoop exState (encodeUInt32 7 ++ [DataIndexes.alive]) = (exState, true)
    ∧ update exEnv exState abortBuf = some (100, exState) :=
  ⟨(manager_unknown_id_without_category_aborts exState
      (encodeUInt32 7 ++ [DataIndexes.alive]) [DataIndexes.alive] []
      7 DataIndexes.alive 100 (by decide) (by decide) (by decide) (by decide)
      (by decide)).1,
    (manager_unknown_id_without_category_aborts exState
      (encodeUInt32 7 ++ [DataIndexes.alive]) [DataIndexes.alive] []
      7 DataIndexes.alive 100 (by decide) (by decide) (by decide) (by decide)
      (by decide)).2 exEnv⟩

/-- C2 fails on the code: when decoding aborts mid-buffer, `update` returns
immediately (part_002 line 174) and the group-assignment loop does not run.
Concretely, unit 5 reports the non-empty group name "Alpha" and has no group,
the buffer aborts on unknown ID 7, and after `update` the unit is still
ungrouped and no group named "Alpha" exists. -/
theorem manager_abort_skips_group_assignment_counterexample :
    update exEnv exState abortBuf = some (100, exState)
    ∧ (exState.getUnit 5).map Manager.Unit.groupName = some "Alpha"
    ∧ (exState.getUnit 5).map Manager.Unit.group = some none
    ∧ exState.groups.lookup "Alpha" = none := by
  decide

/-- C8: demonstration at the failing input.  The buffer introduces ID 7 with
the unrecognized category string "Dragon" and then carries a fuel update for
the existing unit 5.  `addUnit` creates nothing and `this.#units[ID]?.setData`
is skipped, so the cursor is left at the dropped entity's remaining bytes; the
loop re-reads them as an entity ID (1535) and aborts, losing the fuel record:
`update` returns with unit 7 absent and unit 5's fuel still 50, not 10. -/
theorem manager_unknown_category_misaligns_decode :
    update exEnv exState unknownCatBuf = some (100, exState)
    ∧ exState.getUnit 7 = none
    ∧ (exState.getUnit 5).map Manager.Unit.fuel = some 50 := by
  decide

end Manager

namespace Manager

theorem getUnit_setUnit (s : State) (id : Nat) (u : Unit) (j : Nat) :
    (s.setUnit id u).getUnit j
      = (s.getUnit j).map (fun v => if j = id then u else v) := by
  unfold State.setUnit State.getUnit
  exact lookup_map_keyed s.units (fun k v => if k = id then u else v) j

theorem getUnit_setUnit_other (s : State) (id : Nat) (u : Unit) (j : Nat)
    (h : j ≠ id) : (s.setUnit id u).getUnit j = s.getUnit j := by
  rw [getUnit_setUnit]
  simp [h]

theorem getUnit_setUnit_self (s : State) (id : Nat) (u v : Unit)
    (h : s.getUnit id = some v) : (s.setUnit id u).getUnit id = some u := by
  rw [getUnit_setUnit, h]
  simp

end Manager

namespace Manager

theorem groupStep_none (s : State) (j : Nat) (h : s.getUnit j = none) :
    groupStep s j = s := by
  unfold groupStep
  rw [h]

theorem groupStep_empty_name (s : State) (j : Nat) (u : Unit)
    (h : s.getUnit j = some u) (he : u.groupName = "") : groupStep s j = s := by
  unfold groupStep
  rw [h]
  dsimp only
  rw [if_neg (by simp [he])]

theorem groupStep_units_grouped (s : State) (j : Nat) (u : Unit) (n : String)
    (h : s.getUnit j = some u) (hg : u.group = some n) :
    (groupStep s j).units = s.units := by
  unfold groupStep
  rw [h]
  dsimp only
  split
  · rw [if_neg (by simp [hg])]
    split <;> rfl
  · rfl

theorem groupStep_getUnit_other (s : State) (i j : Nat) (hij : i ≠ j) :
    (groupStep s j).getUnit i = s.getUnit i := by
  unfold groupStep
  cases hj : s.getUnit j with
  | none => rfl
  | some u =>
      dsimp only
      split
      · split
        · rw [getUnit_setUnit_other _ _ _ _ hij]
          show State.getUnit _ i = _
          unfold State.getUnit
          split <;> rfl
        · show State.getUnit _ i = _
          unfold State.getUnit
          split <;> rfl
      · rfl

theorem groupStep_flag (s : State) (j : Nat) :
    (groupStep s j).requestDetectionUpdate = s.requestDetectionUpdate := by
  unfold groupStep
  cases hj : s.getUnit j with
  | none => rfl
  | some u =>
      dsimp only
      split
      · split
        · show (State.setUnit _ _ _).requestDetectionUpdate = _
          unfold State.setUnit
          dsimp only
          split <;> rfl
        · split <;> rfl
      · rfl

end Manager

namespace Manager

theorem lookup_groups_mapped (gs : List (String × Group)) (n name : String)
    (j : Nat) :
    (gs.map (fun (p : String × Group) =>
        (p.1, if p.1 = name then { p.2 with members := p.2.members ++ [j] }
              else p.2))).lookup n
      = (gs.lookup n).map (fun G =>
          if n = name then { G with members := G.members ++ [j] } else G) := by
  exact lookup_map_keyed gs
    (fun k G => if k = name then { G with members := G.members ++ [j] } else G) n

theorem groupStep_assigns (s : State) (j : Nat) (u : Unit)
    (h : s.getUnit j = some u) (hn : u.groupName ≠ "") (hg : u.group = none) :
    (groupStep s j).getUnit j = some { u with group := some u.groupName }
    ∧ ∃ G, (groupStep s j).groups.lookup u.groupName = some G
        ∧ j ∈ G.members := by
  unfold groupStep
  rw [h]
  dsimp only
  rw [if_pos hn, if_pos hg]
  have key : ∀ s1 : State, s1.units = s.units →
      ∀ G0, s1.groups.lookup u.groupName = some G0 →
      ((State.setUnit
          { s1 with groups := s1.groups.map (fun (p : String × Group) =>
              (p.1, if p.1 = u.groupName then
                      { p.2 with members := p.2.members ++ [j] }
                    else p.2)) }
          j { u with group := some u.groupName }).getUnit j
        = some { u with group := some u.groupName }
      ∧ ∃ G, (State.setUnit
          { s1 with groups := s1.groups.map (fun (p : String × Group) =>
              (p.1, if p.1 = u.groupName then
                      { p.2 with members := p.2.members ++ [j] }
                    else p.2)) }
          j { u with group := some u.groupName }).groups.lookup u.groupName
            = some G ∧ j ∈ G.members) := by
    intro s1 hunits G0 hG0
    constructor
    · rw [getUnit_setUnit]
      have hu1 : State.getUnit
          { s1 with groups := s1.groups.map (fun (p : String × Group) =>
              (p.1, if p.1 = u.groupName then
                      { p.2 with members := p.2.members ++ [j] }
                    else p.2)) } j = some u := by
        unfold State.getUnit
        dsimp only
        rw [hunits]
        exact h
      rw [hu1]
      simp
    · refine ⟨{ G0 with members := G0.members ++ [j] }, ?_, by simp⟩
      show (s1.groups.map (fun (p : String × Group) =>
          (p.1, if p.1 = u.groupName then
                  { p.2 with members := p.2.members ++ [j] }
                else p.2))).lookup u.groupName = _
      rw [lookup_groups_mapped, hG0]
      simp
  obtain ⟨G0, hG0⟩ : ∃ G0, (if (s.groups.lookup u.groupName).isNone then
      { s with groups := s.groups
          ++ [(u.groupName, { name := u.groupName, members := [] })] }
    else s).groups.lookup u.groupName = some G0 := by
    cases hlk : s.groups.lookup u.groupName with
    | none =>
        refine ⟨({ name := u.groupName, members := [] } : Group), ?_⟩
        simp only [Option.isNone_none, if_true]
        show (s.groups ++ [(u.groupName,
            ({ name := u.groupName, members := [] } : Group))]).lookup
              u.groupName = _
        rw [lookup_append_none _ _ _ hlk]
        simp [List.lookup_cons]
    | some G0 =>
        simp only [Option.isNone_some, Bool.false_eq_true, if_false]
        exact ⟨G0, hlk⟩
  exact key _ (by split <;> rfl) G0 hG0

end Manager

namespace Manager

theorem groupStep_member_mono (s : State) (j i : Nat) (n : String) (G : Group)
    (h : s.groups.lookup n = some G) (hm : i ∈ G.members) :
    ∃ G', (groupStep s j).groups.lookup n = some G' ∧ i ∈ G'.members := by
  unfold groupStep
  cases hj : s.getUnit j with
  | none => exact ⟨G, h, hm⟩
  | some u =>
      dsimp only
      split
      · have hs1 : (if (s.groups.lookup u.groupName).isNone then
            { s with groups := s.groups
                ++ [(u.groupName, { name := u.groupName, members := [] })] }
          else s).groups.lookup n = some G := by
          split
          · exact lookup_append_some _ _ _ _ h
          · exact h
        split
        · refine ⟨(if n = u.groupName then { G with members := G.members ++ [j] }
              else G), ?_, ?_⟩
          · simp only [State.setUnit]
            rw [lookup_groups_mapped, hs1]
            rfl
          · split
            · exact List.mem_append_left _ hm
            · exact hm
        · exact ⟨G, hs1, hm⟩
      · exact ⟨G, h, hm⟩

theorem getUnit_of_units_eq (s t : State) (i : Nat) (h : t.units = s.units) :
    t.getUnit i = s.getUnit i := by
  unfold State.getUnit
  rw [h]

theorem groupStep_getUnit_cases (s : State) (j i : Nat) (u : Unit)
    (h : s.getUnit i = some u) :
    (groupStep s j).getUnit i = some u
    ∨ (u.group = none ∧ (groupStep s j).getUnit i
        = some { u with group := some u.groupName }) := by
  by_cases hij : i = j
  · subst hij
    by_cases hname : u.groupName = ""
    · rw [groupStep_empty_name s i u h hname]
      exact Or.inl h
    · cases hg : u.group with
      | none => exact Or.inr ⟨rfl, (groupStep_assigns s i u h hname hg).1⟩
      | some n =>
          refine Or.inl ?_
          rw [getUnit_of_units_eq s (groupStep s i) i
            (groupStep_units_grouped s i u n h hg)]
          exact h
  · refine Or.inl ?_
    rw [groupStep_getUnit_other s i j hij]
    exact h

end Manager

namespace Manager

theorem foldl_groupStep_group_mono (ids : List Nat) (s : State) (i : Nat)
    (u : Unit) (n : String) (h : s.getUnit i = some u) (hg : u.group = some n) :
    ∃ u', (ids.foldl groupStep s).getUnit i = some u' ∧ u'.group = some n := by
  induction ids generalizing s u with
  | nil => exact ⟨u, h, hg⟩
  | cons j ids ih =>
      rw [List.foldl_cons]
      rcases groupStep_getUnit_cases s j i u h with h1 | ⟨h2, _⟩
      · exact ih (groupStep s j) u h1 hg
      · rw [h2] at hg
        cases hg

theorem foldl_groupStep_member_mono (ids : List Nat) (s : State) (i : Nat)
    (n : String) (G : Group) (h : s.groups.lookup n = some G)
    (hm : i ∈ G.members) :
    ∃ G', (ids.foldl groupStep s).groups.lookup n = some G' ∧ i ∈ G'.members := by
  induction ids generalizing s G with
  | nil => exact ⟨G, h, hm⟩
  | cons j ids ih =>
      rw [List.foldl_cons]
      obtain ⟨G', hG', hm'⟩ := groupStep_member_mono s j i n G h hm
      exact ih (groupStep s j) G' hG' hm'

theorem foldl_groupStep_assigns (ids : List Nat) (s : State) (i : Nat)
    (u : Unit) (hin : i ∈ ids) (h : s.getUnit i = some u)
    (hname : u.groupName ≠ "") (hg : u.group = none) :
    ∃ u' G, (ids.foldl groupStep s).getUnit i = some u'
      ∧ u'.group = some u.groupName
      ∧ (ids.foldl groupStep s).groups.lookup u.groupName = some G
      ∧ i ∈ G.members := by
  induction ids generalizing s u with
  | nil => cases hin
  | cons j ids ih =>
      rw [List.foldl_cons]
      by_cases hij : j = i
      · subst hij
        obtain ⟨ha, G0, hG0, hmem⟩ := groupStep_assigns s j u h hname hg
        obtain ⟨u', hu', hg'⟩ := foldl_groupStep_group_mono ids (groupStep s j) j
          { u with group := some u.groupName } u.groupName ha rfl
        obtain ⟨G', hG', hm'⟩ := foldl_groupStep_member_mono ids (groupStep s j) j
          u.groupName G0 hG0 hmem
        exact ⟨u', G', hu', hg', hG', hm'⟩
      · rcases List.mem_cons.mp hin with he | hin'
        · exact absurd he.symm hij
        · have h' : (groupStep s j).getUnit i = some u := by
            rw [groupStep_getUnit_other s i j (fun he => hij he.symm)]
            exact h
          exact ih (groupStep s j) u hin' h' hname hg

theorem foldl_groupStep_empty_name (ids : List Nat) (s : State) (i : Nat)
    (u : Unit) (h : s.getUnit i = some u) (hname : u.groupName = "") :
    (ids.foldl groupStep s).getUnit i = some u := by
  induction ids generalizing s with
  | nil => exact h
  | cons j ids ih =>
      rw [List.foldl_cons]
      by_cases hij : i = j
      · subst hij
        rw [groupStep_empty_name s i u h hname]
        exact ih s h
      · exact ih _ (by rw [groupStep_getUnit_other s i j hij]; exact h)

theorem foldl_groupStep_flag (ids : List Nat) (s : State) :
    (ids.foldl groupStep s).requestDetectionUpdate = s.requestDetectionUpdate := by
  induction ids generalizing s with
  | nil => rfl
  | cons j ids ih =>
      rw [List.foldl_cons, ih, groupStep_flag]

end Manager

namespace Manager

theorem applyDatum_group (u : Unit) (t : Nat) (bs : List Nat) (u2 : Unit)
    (r : List Nat) (h : applyDatum u t bs = some (u2, r)) :
    u2.group = u.group := by
  unfold applyDatum at h
  split_ifs at h
  · cases hx : extractString bs with
    | none => rw [hx] at h; cases h
    | some p => rw [hx] at h; injection h with h1; injection h1 with h2 h3; rw [← h2]
  · cases hx : extractUInt8 bs with
    | none => rw [hx] at h; cases h
    | some p => rw [hx] at h; injection h with h1; injection h1 with h2 h3; rw [← h2]
  · cases hx : extractString bs with
    | none => rw [hx] at h; cases h
    | some p => rw [hx] at h; injection h with h1; injection h1 with h2 h3; rw [← h2]
  · cases hx : extractUInt8 bs with
    | none => rw [hx] at h; cases h
    | some p => rw [hx] at h; injection h with h1; injection h1 with h2 h3; rw [← h2]

theorem setDataF_group (fuel : Nat) (u : Unit) (bs : List Nat) :
    (setDataF fuel u bs).1.group = u.group := by
  induction fuel generalizing u bs with
  | zero => rfl
  | succ fuel ih =>
      unfold setDataF
      cases bs with
      | nil => rfl
      | cons t rest =>
          dsimp only
          split
          · rfl
          · cases hx : applyDatum u t rest with
            | none => rfl
            | some p =>
                obtain ⟨u2, rest2⟩ := p
                dsimp only
                rw [ih u2 rest2]
                exact applyDatum_group u t rest u2 rest2 hx

end Manager

namespace Manager

theorem addUnit_getUnit_preserved (s : State) (i id0 : Nat) (cat : String)
    (u : Unit) (h : s.getUnit i = some u) :
    (s.addUnit id0 cat).getUnit i = some u := by
  unfold State.addUnit
  split_ifs
  · exact lookup_append_some _ _ _ _ h
  · exact h
  · exact h

theorem setData_group (u : Unit) (bs : List Nat) :
    (u.setData bs).1.group = u.group :=
  setDataF_group (bs.length + 1) u bs

theorem decodeLoopF_group_mono (fuel : Nat) (s : State) (bs : List Nat)
    (i : Nat) (u : Unit) (n : String) (h : s.getUnit i = some u)
    (hg : u.group = some n) :
    ∃ u', (decodeLoopF fuel s bs).1.getUnit i = some u' ∧ u'.group = some n := by
  induction fuel generalizing s bs u with
  | zero => exact ⟨u, h, hg⟩
  | succ fuel ih =>
      unfold decodeLoopF
      cases bs with
      | nil => exact ⟨u, h, hg⟩
      | cons b bs0 =>
          dsimp only
          cases h32 : extractUInt32 (b :: bs0) with
          | none => exact ⟨u, h, hg⟩
          | some pr =>
              obtain ⟨id0, r1⟩ := pr
              dsimp only
              cases hju : s.getUnit id0 with
              | some v =>
                  dsimp only
                  by_cases hii : i = id0
                  · subst hii
                    have hv : v = u := by
                      rw [h] at hju
                      injection hju with hv
                      exact hv.symm
                    subst hv
                    have hgrp : (v.setData r1).1.group = some n := by
                      rw [setData_group]
                      exact hg
                    exact ih (s.setUnit i (v.setData r1).1) (v.setData r1).2
                      (v.setData r1).1 (getUnit_setUnit_self s i _ v hju) hgrp
                  · exact ih _ _ u
                      (by rw [getUnit_setUnit_other s id0 _ i hii]; exact h) hg
              | none =>
                  dsimp only
                  cases h8 : extractUInt8 r1 with
                  | none => exact ⟨u, h, hg⟩
                  | some pt =>
                      obtain ⟨tag, r2⟩ := pt
                      dsimp only
                      split
                      · cases hstr : extractString r2 with
                        | none => exact ⟨u, h, hg⟩
                        | some pc =>
                            obtain ⟨cat, r3⟩ := pc
                            dsimp only
                            have hne : i ≠ id0 := by
                              intro he
                              rw [he, hju] at h
                              cases h
                            have h2 : (s.addUnit id0 cat).getUnit i = some u :=
                              addUnit_getUnit_preserved s i id0 cat u h
                            cases hw : (s.addUnit id0 cat).getUnit id0 with
                            | some w =>
                                dsimp only
                                exact ih _ _ u (by
                                  rw [getUnit_setUnit_other _ id0 _ i hne]
                                  exact h2) hg
                            | none =>
                                dsimp only
                                exact ih _ _ u h2 hg
                      · exact ⟨u, h, hg⟩

end Manager

namespace Manager

theorem detectionStep_getUnit (env : Env) (s : State) (i : Nat) :
    (detectionStep env s).getUnit i
      = (s.getUnit i).map (fun u =>
          { u with detectionMethods := detectionDict env s i }) := by
  unfold detectionStep State.getUnit
  dsimp only
  exact lookup_map_keyed s.units
    (fun k v => { v with detectionMethods := detectionDict env s k }) i

theorem detectionStep_groups (env : Env) (s : State) :
    (detectionStep env s).groups = s.groups := rfl

theorem detectionStep_group_mono (env : Env) (s : State) (i : Nat) (u : Unit)
    (h : s.getUnit i = some u) :
    ∃ u', (detectionStep env s).getUnit i = some u' ∧ u'.group = u.group := by
  rw [detectionStep_getUnit, h]
  exact ⟨_, rfl, rfl⟩

/-- C6: group membership is permanent once assigned: (1) two ungrouped units
reporting the same non-empty group name are both added as members of the one
Group object of that name by the group-assignment step; (2) a unit whose group
is already non-null keeps exactly that group through any later call to
`update`; (3) a unit whose group name is the empty string is left untouched by
the group-assignment step (in particular it joins no group). -/
theorem manager_group_membership_permanent :
    (∀ (s : State) (id1 id2 : Nat) (u1 u2 : Unit) (n : String),
      s.getUnit id1 = some u1 → s.getUnit id2 = some u2 →
      u1.groupName = n → u2.groupName = n → n ≠ "" →
      u1.group = none → u2.group = none →
      ∃ G u1' u2', (updateGroups s).groups.lookup n = some G
        ∧ id1 ∈ G.members ∧ id2 ∈ G.members
        ∧ (updateGroups s).getUnit id1 = some u1' ∧ u1'.group = some n
        ∧ (updateGroups s).getUnit id2 = some u2' ∧ u2'.group = some n)
    ∧ (∀ (env : Env) (s : State) (buf : List Nat) (id : Nat) (u : Unit)
        (g : String) (ts' : Nat) (s' : State),
      s.getUnit id = some u → u.group = some g →
      update env s buf = some (ts', s') →
      ∃ u', s'.getUnit id = some u' ∧ u'.group = some g)
    ∧ (∀ (s : State) (id : Nat) (u : Unit),
      s.getUnit id = some u → u.groupName = "" →
      (updateGroups s).getUnit id = some u) := by
  refine ⟨?_, ?_, ?_⟩
  · intro s id1 id2 u1 u2 n h1 h2 hn1 hn2 hne hg1 hg2
    have hin1 : id1 ∈ s.units.map Prod.fst := lookup_mem_keys _ _ _ h1
    have hin2 : id2 ∈ s.units.map Prod.fst := lookup_mem_keys _ _ _ h2
    obtain ⟨u1', G1, hu1, hgg1, hG1, hm1⟩ :=
      foldl_groupStep_assigns (s.units.map Prod.fst) s id1 u1 hin1 h1
        (hn1 ▸ hne) hg1
    obtain ⟨u2', G2, hu2, hgg2, hG2, hm2⟩ :=
      foldl_groupStep_assigns (s.units.map Prod.fst) s id2 u2 hin2 h2
        (hn2 ▸ hne) hg2
    rw [hn1] at hG1 hgg1
    rw [hn2] at hG2 hgg2
    have hGG : G1 = G2 := by
      have h12 := hG1.symm.trans hG2
      injection h12
    refine ⟨G1, u1', u2', hG1, hm1, ?_, hu1, hgg1, hu2, hgg2⟩
    rw [hGG]
    exact hm2
  · intro env s buf id u g ts' s' h hg hupd
    unfold update at hupd
    cases h64 : extractUInt64 buf with
    | none => rw [h64] at hupd; cases hupd
    | some pr =>
        obtain ⟨t, r⟩ := pr
        rw [h64] at hupd
        dsimp only at hupd
        obtain ⟨u1, hu1, hg1⟩ :=
          decodeLoopF_group_mono (r.length + 1) s r id u g h hg
        split at hupd
        · injection hupd with h1
          injection h1 with hts hstate
          subst hstate
          exact ⟨u1, hu1, hg1⟩
        · injection hupd with h1
          injection h1 with hts hstate
          subst hstate
          obtain ⟨u2, hu2, hg2⟩ := foldl_groupStep_group_mono _
            (decodeLoop s r).1 id u1 g hu1 hg1
          have hu2' : (updateGroups (decodeLoop s r).1).getUnit id = some u2 :=
            hu2
          split
          · obtain ⟨u3, hu3, hgr3⟩ :=
              detectionStep_group_mono env (updateGroups (decodeLoop s r).1)
                id u2 hu2'
            exact ⟨u3, hu3, hgr3.trans hg2⟩
          · exact ⟨u2, hu2', hg2⟩
  · intro s id u h he
    exact foldl_groupStep_empty_name _ s id u h he

end Manager

namespace Manager

/-- C2 (amended): the post-decode group-assignment step runs when the whole
buffer is consumed (decode loop ended without aborting): every unit with a
non-empty group name and a null group is then added to the Group object of
that name, created on demand.  (As stated the claim is false: when decoding
aborts mid-buffer, `update` returns immediately and no group assignment
happens — see the counterexample.) -/
theorem manager_groups_assigned_after_full_consumption (env : Env) (s0 : State) (body : List Nat) (ts : Nat)
    (s1 : State) (id : Nat) (u : Unit)
    (hts : ts < 2 ^ 64)
    (hdec : decodeLoop s0 body = (s1, false))
    (hu : s1.getUnit id = some u) (hn : u.groupName ≠ "") (hg : u.group = none) :
    ∃ s' u' G, update env s0 (encodeUInt64 ts ++ body) = some (ts, s')
      ∧ s'.getUnit id = some u' ∧ u'.group = some u.groupName
      ∧ s'.groups.lookup u.groupName = some G ∧ id ∈ G.members := by
  unfold update
  have h64 : extractUInt64 (encodeUInt64 ts ++ body) = some (ts, body) := by
    unfold extractUInt64 encodeUInt64
    exact extractNum_encode_append 8 ts body hts
  rw [h64]
  dsimp only
  rw [hdec]
  dsimp only
  rw [if_neg (by decide : ¬ (false = true))]
  obtain ⟨u', G, hu', hg', hG, hm⟩ :=
    foldl_groupStep_assigns (s1.units.map Prod.fst) s1 id u
      (lookup_mem_keys _ _ _ hu) hu hn hg
  have hu2 : (updateGroups s1).getUnit id = some u' := hu'
  have hG2 : (updateGroups s1).groups.lookup u.groupName = some G := hG
  split
  · obtain ⟨u3, hu3, hgr3⟩ :=
      detectionStep_group_mono env (updateGroups s1) id u' hu2
    refine ⟨_, u3, G, rfl, hu3, by rw [hgr3, hg'], ?_, hm⟩
    rw [detectionStep_groups]
    exact hG2
  · exact ⟨_, u', G, rfl, hu2, hg', hG2, hm⟩

end Manager

namespace Manager

/-- Witness for C6 at concrete inputs: units 5 and 6 both report "Alpha" and
join the one group of that name; the already-grouped unit 8 keeps "Old"
through a full `update` call; the empty-named unit 9 is untouched. -/
theorem manager_group_membership_permanent_witness :
    (∃ G u1' u2', (updateGroups twoUnitState).groups.lookup "Alpha" = some G
      ∧ 5 ∈ G.members ∧ 6 ∈ G.members
      ∧ (updateGroups twoUnitState).getUnit 5 = some u1'
      ∧ u1'.group = some "Alpha"
      ∧ (updateGroups twoUnitState).getUnit 6 = some u2'
      ∧ u2'.group = some "Alpha")
    ∧ (∃ u', ({ units := [(8, groupedUnit)],
                groups := [("Alpha", { name := "Alpha", members := [] })],
                requestDetectionUpdate := false } : State).getUnit 8 = some u'
        ∧ u'.group = some "Old")
    ∧ (updateGroups detState).getUnit 9 = some targetUnit :=
  ⟨manager_group_membership_permanent.1 twoUnitState 5 6 exUnit5 exUnit6
      "Alpha" (by decide) (by decide) (by decide) (by decide) (by decide)
      (by decide) (by decide),
    manager_group_membership_permanent.2.1 exEnv groupedState (encodeUInt64 3)
      8 groupedUnit "Old" 3
      { units := [(8, groupedUnit)],
        groups := [("Alpha", { name := "Alpha", members := [] })],
        requestDetectionUpdate := false }
      (by decide) (by decide) (by decide),
    manager_group_membership_permanent.2.2 detState 9 targetUnit (by decide)
      (by decide)⟩

/-- Witness for C2 (amended) at concrete inputs: with a timestamp-only buffer
the decode loop completes, and the ungrouped unit 5 reporting "Alpha" is
assigned to the freshly created group. -/
theorem manager_groups_assigned_after_full_consumption_witness :
    (42 : Nat) < 2 ^ 64
    ∧ decodeLoop exState [] = (exState, false)
    ∧ (exState.getUnit 5).map Manager.Unit.groupName = some "Alpha"
    ∧ (∃ s' u' G, update exEnv exState (encodeUInt64 42 ++ []) = some (42, s')
        ∧ s'.getUnit 5 = some u' ∧ u'.group = some exUnit5.groupName
        ∧ s'.groups.lookup exUnit5.groupName = some G ∧ 5 ∈ G.members) :=
  ⟨by decide, by decide, by decide,
    manager_groups_assigned_after_full_consumption exEnv exState [] 42 exState
      5 exUnit5 (by decide) (by decide) (by decide) (by decide) (by decide)⟩

end Manager

namespace Manager

theorem contains_true_iff (l : List Nat) (a : Nat) :
    l.contains a = true ↔ a ∈ l := by
  simp [List.contains, List.elem_iff]

theorem bool_not_true (b : Bool) (h : ¬ b = true) : b = false := by
  cases b
  · rfl
  · exact absurd rfl h

theorem contactStep_mem (keys : List Nat) (f : Nat → List Nat) (c : Contact)
    (x m : Nat) :
    m ∈ contactStep keys f c x ↔
      (m ∈ f x ∨ (x = c.ID ∧ keys.contains c.ID = true
        ∧ m = c.detectionMethod)) := by
  unfold contactStep
  split
  · next hcond =>
      simp only [Bool.and_eq_true, Bool.not_eq_true'] at hcond
      dsimp only
      by_cases hx : x = c.ID
      · subst hx
        rw [if_pos rfl]
        simp only [List.mem_append, List.mem_singleton, hcond.1]
        tauto
      · rw [if_neg hx]
        constructor
        · exact Or.inl
        · rintro (h | ⟨hx2, hh1, hh2⟩)
          · exact h
          · exact absurd hx2 hx
  · next hcond =>
      have hcond2 : keys.contains c.ID = false
          ∨ (f c.ID).contains c.detectionMethod = true := by
        by_cases hcase : keys.contains c.ID = true
        · by_cases h2 : (f c.ID).contains c.detectionMethod = true
          · exact Or.inr h2
          · exact absurd (by rw [hcase, bool_not_true _ h2]; rfl) hcond
        · exact Or.inl (bool_not_true _ hcase)
      constructor
      · exact Or.inl
      · rintro (h | ⟨hx2, hk, hm⟩)
        · exact h
        · rcases hcond2 with hc | hc
          · rw [hk] at hc
            cases hc
          · subst hx2
            subst hm
            exact (contains_true_iff _ _).mp hc

end Manager

namespace Manager

theorem contactStep_nodup (keys : List Nat) (f : Nat → List Nat) (c : Contact)
    (hf : ∀ x, (f x).Nodup) : ∀ x, (contactStep keys f c x).Nodup := by
  intro x
  unfold contactStep
  split
  · next hcond =>
      simp only [Bool.and_eq_true, Bool.not_eq_true'] at hcond
      dsimp only
      by_cases hx : x = c.ID
      · subst hx
        rw [if_pos rfl]
        refine List.Nodup.append (hf _) (List.nodup_singleton _) ?_
        intro a ha hb
        rw [List.mem_singleton] at hb
        subst hb
        have hmem : (f c.ID).contains c.detectionMethod = true :=
          (contains_true_iff _ _).mpr ha
        rw [hcond.2] at hmem
        cases hmem
      · rw [if_neg hx]
        exact hf x
  · exact hf x

theorem foldl_contactStep_mem (cs : List Contact) (keys : List Nat)
    (f : Nat → List Nat) (x m : Nat) :
    m ∈ (cs.foldl (contactStep keys) f) x ↔
      (m ∈ f x ∨ ∃ c ∈ cs, x = c.ID ∧ keys.contains c.ID = true
        ∧ m = c.detectionMethod) := by
  induction cs generalizing f with
  | nil => simp
  | cons c cs ih =>
      rw [List.foldl_cons, ih]
      rw [contactStep_mem]
      constructor
      · rintro ((h | h) | ⟨c', hc', h⟩)
        · exact Or.inl h
        · exact Or.inr ⟨c, List.mem_cons_self _ _, h⟩
        · exact Or.inr ⟨c', List.mem_cons_of_mem _ hc', h⟩
      · rintro (h | ⟨c', hc', h⟩)
        · exact Or.inl (Or.inl h)
        · rcases List.mem_cons.mp hc' with rfl | hc''
          · exact Or.inl (Or.inr h)
          · exact Or.inr ⟨c', hc'', h⟩

theorem foldl_contactStep_nodup (cs : List Contact) (keys : List Nat)
    (f : Nat → List Nat) (hf : ∀ x, (f x).Nodup) :
    ∀ x, ((cs.foldl (contactStep keys) f) x).Nodup := by
  induction cs generalizing f with
  | nil => exact hf
  | cons c cs ih =>
      rw [List.foldl_cons]
      exact ih _ (contactStep_nodup keys f c hf)

theorem unitStep_mem (env : Env) (keys : List Nat) (f : Nat → List Nat)
    (p : Nat × Unit) (x m : Nat) :
    m ∈ unitStep env keys f p x ↔
      (m ∈ f x ∨ (p.2.alive = true ∧ p.2.belongsToCommandedCoalition env = true
        ∧ ∃ c ∈ p.2.contacts, x = c.ID ∧ keys.contains c.ID = true
          ∧ m = c.detectionMethod)) := by
  unfold unitStep
  split
  · next hcond =>
      simp only [Bool.and_eq_true] at hcond
      rw [foldl_contactStep_mem]
      simp [hcond.1, hcond.2]
  · next hcond =>
      simp only [Bool.and_eq_true, not_and] at hcond
      constructor
      · exact Or.inl
      · rintro (h | ⟨ha, hc, _⟩)
        · exact h
        · exact absurd hc (hcond ha)

theorem unitStep_nodup (env : Env) (keys : List Nat) (f : Nat → List Nat)
    (p : Nat × Unit) (hf : ∀ x, (f x).Nodup) :
    ∀ x, (unitStep env keys f p x).Nodup := by
  unfold unitStep
  split
  · exact foldl_contactStep_nodup _ keys f hf
  · exact hf

theorem foldl_unitStep_mem (ups : List (Nat × Unit)) (env : Env)
    (keys : List Nat) (f : Nat → List Nat) (x m : Nat) :
    m ∈ (ups.foldl (unitStep env keys) f) x ↔
      (m ∈ f x ∨ ∃ p ∈ ups, p.2.alive = true
        ∧ p.2.belongsToCommandedCoalition env = true
        ∧ ∃ c ∈ p.2.contacts, x = c.ID ∧ keys.contains c.ID = true
          ∧ m = c.detectionMethod) := by
  induction ups generalizing f with
  | nil => simp
  | cons p ups ih =>
      rw [List.foldl_cons, ih, unitStep_mem]
      constructor
      · rintro ((h | h) | ⟨p', hp', h⟩)
        · exact Or.inl h
        · exact Or.inr ⟨p, List.mem_cons_self _ _, h⟩
        · exact Or.inr ⟨p', List.mem_cons_of_mem _ hp', h⟩
      · rintro (h | ⟨p', hp', h⟩)
        · exact Or.inl (Or.inl h)
        · rcases List.mem_cons.mp hp' with rfl | hp''
          · exact Or.inl (Or.inr h)
          · exact Or.inr ⟨p', hp'', h⟩

theorem foldl_unitStep_nodup (ups : List (Nat × Unit)) (env : Env)
    (keys : List Nat) (f : Nat → List Nat) (hf : ∀ x, (f x).Nodup) :
    ∀ x, ((ups.foldl (unitStep env keys) f) x).Nodup := by
  induction ups generalizing f with
  | nil => exact hf
  | cons p ups ih =>
      rw [List.foldl_cons]
      exact ih _ (unitStep_nodup env keys f p hf)

theorem detectionDict_mem (env : Env) (s : State) (x m : Nat) :
    m ∈ detectionDict env s x ↔
      ∃ p ∈ s.units, p.2.alive = true
        ∧ p.2.belongsToCommandedCoalition env = true
        ∧ ∃ c ∈ p.2.contacts, x = c.ID
          ∧ (s.units.map Prod.fst ++ env.weaponIDs).contains c.ID = true
          ∧ m = c.detectionMethod := by
  unfold detectionDict
  rw [foldl_unitStep_mem]
  simp

theorem detectionDict_nodup (env : Env) (s : State) (x : Nat) :
    (detectionDict env s x).Nodup := by
  unfold detectionDict
  exact foldl_unitStep_nodup _ env _ _ (fun _ => List.nodup_nil) x

end Manager

namespace Manager

/-- Two keyed units agree on everything except possibly the joined group. -/
def sameButGroup (p q : Nat × Unit) : Prop :=
  p.1 = q.1 ∧ q.2 = { p.2 with group := q.2.group }

theorem sameButGroup_refl (p : Nat × Unit) : sameButGroup p p := ⟨rfl, rfl⟩

theorem sameButGroup_trans {p q r : Nat × Unit} (h1 : sameButGroup p q)
    (h2 : sameButGroup q r) : sameButGroup p r := by
  obtain ⟨ha1, hb1⟩ := h1
  obtain ⟨ha2, hb2⟩ := h2
  refine ⟨ha1.trans ha2, ?_⟩
  rw [hb2, hb1]

theorem forall₂_sameButGroup_refl (l : List (Nat × Unit)) :
    List.Forall₂ sameButGroup l l :=
  List.forall₂_same.mpr (fun p _ => sameButGroup_refl p)

theorem forall₂_sameButGroup_trans (l1 l2 l3 : List (Nat × Unit))
    (h1 : List.Forall₂ sameButGroup l1 l2)
    (h2 : List.Forall₂ sameButGroup l2 l3) :
    List.Forall₂ sameButGroup l1 l3 := by
  induction h1 generalizing l3 with
  | nil => cases h2; exact List.Forall₂.nil
  | cons hpq h12 ih =>
      cases h2 with
      | cons hqr h23 => exact List.Forall₂.cons (sameButGroup_trans hpq hqr) (ih _ h23)

theorem forall₂_sameButGroup_keys (l1 l2 : List (Nat × Unit))
    (h : List.Forall₂ sameButGroup l1 l2) :
    l1.map Prod.fst = l2.map Prod.fst := by
  induction h with
  | nil => rfl
  | cons hpq h ih => simp [List.map_cons, ih, hpq.1]

theorem groupStep_sameButGroup (s : State) (j : Nat)
    (hn : (s.units.map Prod.fst).Nodup) :
    List.Forall₂ sameButGroup s.units (groupStep s j).units := by
  unfold groupStep
  cases hj : s.getUnit j with
  | none => exact forall₂_sameButGroup_refl _
  | some u =>
      dsimp only
      split
      · split
        · -- assignment branch: setUnit over possibly groups-extended state
          show List.Forall₂ sameButGroup s.units (State.setUnit _ j _).units
          unfold State.setUnit
          dsimp only
          have hunits : ∀ s1 : State, s1.units = s.units →
              List.Forall₂ sameButGroup s.units
                (s1.units.map (fun p =>
                  (p.1, if p.1 = j then { u with group := some u.groupName }
                        else p.2))) := by
            intro s1 hs1
            rw [hs1]
            rw [List.forall₂_map_right_iff]
            rw [List.forall₂_same]
            intro p hp
            by_cases hpj : p.1 = j
            · refine ⟨by rw [hpj], ?_⟩
              have hpu : p.2 = u := by
                have hl : s.units.lookup p.1 = some p.2 :=
                  nodup_lookup s.units p.1 p.2 hn hp
                rw [hpj] at hl
                have h2 := hl.symm.trans hj
                injection h2
              rw [if_pos hpj, hpu]
            · exact ⟨rfl, by rw [if_neg hpj]⟩
          have hgroups1 : ∀ c : Prop, ∀ inst : Decidable c, (if c then
              { s with groups := s.groups
                  ++ [(u.groupName, { name := u.groupName, members := [] })] }
            else s).units = s.units := by
            intro c inst
            split <;> rfl
          exact hunits _ (hgroups1 _ _)
        · show List.Forall₂ sameButGroup s.units _
          have : ∀ c : Prop, ∀ inst : Decidable c, (if c then
              { s with groups := s.groups
                  ++ [(u.groupName, { name := u.groupName, members := [] })] }
            else s).units = s.units := by
            intro c inst
            split <;> rfl
          rw [this _ _]
          exact forall₂_sameButGroup_refl _
      · exact forall₂_sameButGroup_refl _

end Manager

namespace Manager

theorem foldl_groupStep_sameButGroup (ids : List Nat) (s : State)
    (hn : (s.units.map Prod.fst).Nodup) :
    List.Forall₂ sameButGroup s.units ((ids.foldl groupStep s).units) := by
  induction ids generalizing s with
  | nil => exact forall₂_sameButGroup_refl _
  | cons j ids ih =>
      rw [List.foldl_cons]
      have h1 := groupStep_sameButGroup s j hn
      have hkeys : (groupStep s j).units.map Prod.fst = s.units.map Prod.fst :=
        (forall₂_sameButGroup_keys _ _ h1).symm
      have h2 := ih (groupStep s j) (by rw [hkeys]; exact hn)
      exact forall₂_sameButGroup_trans _ _ _ h1 h2

theorem foldl_groupStep_butGroup (ids : List Nat) (s : State) (i : Nat)
    (u : Unit) (h : s.getUnit i = some u) :
    ∃ w, (ids.foldl groupStep s).getUnit i = some w
      ∧ w = { u with group := w.group } := by
  induction ids generalizing s u with
  | nil => exact ⟨u, h, rfl⟩
  | cons j ids ih =>
      rw [List.foldl_cons]
      rcases groupStep_getUnit_cases s j i u h with h1 | ⟨hg, h1⟩
      · exact ih (groupStep s j) u h1
      · obtain ⟨w, hw, hshape⟩ := ih (groupStep s j) _ h1
        refine ⟨w, hw, ?_⟩
        rw [hshape]
  

theorem exists_mem_transfer (l l' : List (Nat × Unit))
    (h : List.Forall₂ sameButGroup l l') (P Q : Nat × Unit → Prop)
    (hPQ : ∀ p q, sameButGroup p q → (P p ↔ Q q)) :
    (∃ p ∈ l, P p) ↔ (∃ q ∈ l', Q q) := by
  induction h with
  | nil => simp
  | cons hpq hrest ih =>
      simp only [List.mem_cons, exists_eq_or_imp]
      rw [hPQ _ _ hpq, ih]

end Manager

namespace Manager

/-- C7 (amended): when the detection dirty flag is set AND the command mode is
not game master, `update` recomputes every unit's detection-methods list as
the duplicate-free inversion of the contact lists of the alive units of the
locally-commanded coalition, and clears the flag; when the flag is not set, no
unit's detection-methods list is recomputed by `update`.  (As stated the claim
is false: with the flag set in game-master mode nothing is recomputed and the
flag stays set — see the counterexample.) -/
theorem manager_detection_inverts_contacts_when_dirty :
    (∀ (env : Env) (s : State) (ts : Nat),
      ts < 2 ^ 64 → s.requestDetectionUpdate = true →
      env.commandMode ≠ GAME_MASTER → (s.units.map Prod.fst).Nodup →
      ∃ s', update env s (encodeUInt64 ts) = some (ts, s')
        ∧ s'.requestDetectionUpdate = false
        ∧ ∀ (id : Nat) (u u' : Unit), s.getUnit id = some u →
            s'.getUnit id = some u' →
            u'.detectionMethods.Nodup
            ∧ ∀ m, (m ∈ u'.detectionMethods ↔
                ∃ p ∈ s.units, p.2.alive = true
                  ∧ p.2.belongsToCommandedCoalition env = true
                  ∧ ∃ c ∈ p.2.contacts, c.ID = id ∧ c.detectionMethod = m))
    ∧ (∀ (env : Env) (s : State) (ts : Nat),
      ts < 2 ^ 64 → s.requestDetectionUpdate = false →
      ∃ s', update env s (encodeUInt64 ts) = some (ts, s')
        ∧ ∀ (id : Nat) (u : Unit), s.getUnit id = some u →
            ∃ u', s'.getUnit id = some u'
              ∧ u'.detectionMethods = u.detectionMethods) := by
  constructor
  · intro env s ts hts hdirty hgm hn
    have h64 : extractUInt64 (encodeUInt64 ts) = some (ts, []) := by
      have := extractNum_encode_append 8 ts [] hts
      rw [List.append_nil] at this
      exact this
    unfold update
    rw [h64]
    dsimp only
    have hdec : decodeLoop s [] = (s, false) := rfl
    rw [hdec]
    dsimp only
    rw [if_neg (by decide : ¬ (false = true))]
    have hflag : (updateGroups s).requestDetectionUpdate = true :=
      (foldl_groupStep_flag _ _).trans hdirty
    have hbeq : (env.commandMode == GAME_MASTER) = false :=
      beq_eq_false_iff_ne.mpr hgm
    rw [if_pos (by rw [hflag, hbeq]; rfl)]
    refine ⟨_, rfl, rfl, ?_⟩
    intro id u u' hu hu'
    obtain ⟨w, hw, hshape⟩ := foldl_groupStep_butGroup _ s id u hu
    rw [detectionStep_getUnit] at hu'
    have hw2 : (updateGroups s).getUnit id = some w := hw
    rw [hw2] at hu'
    dsimp only [Option.map] at hu'
    injection hu' with hu'
    have hid_keys : id ∈ s.units.map Prod.fst := lookup_mem_keys _ _ _ hu
    have hkeys_eq : (updateGroups s).units.map Prod.fst = s.units.map Prod.fst :=
      (forall₂_sameButGroup_keys _ _ (foldl_groupStep_sameButGroup _ s hn)).symm
    have hcontains : ((updateGroups s).units.map Prod.fst
        ++ env.weaponIDs).contains id = true := by
      rw [contains_true_iff]
      exact List.mem_append_left _ (by rw [hkeys_eq]; exact hid_keys)
    constructor
    · rw [← hu']
      exact detectionDict_nodup env (updateGroups s) id
    · intro m
      rw [← hu']
      show m ∈ detectionDict env (updateGroups s) id ↔ _
      rw [detectionDict_mem]
      have htransfer := exists_mem_transfer s.units (updateGroups s).units
        (foldl_groupStep_sameButGroup _ s hn)
        (fun p => p.2.alive = true ∧ p.2.belongsToCommandedCoalition env = true
          ∧ ∃ c ∈ p.2.contacts, c.ID = id ∧ c.detectionMethod = m)
        (fun q => q.2.alive = true ∧ q.2.belongsToCommandedCoalition env = true
          ∧ ∃ c ∈ q.2.contacts, id = c.ID
            ∧ ((updateGroups s).units.map Prod.fst
                ++ env.weaponIDs).contains c.ID = true
            ∧ m = c.detectionMethod)
        ?_
      · rw [← htransfer]
      · intro p q hpq
        obtain ⟨hfst, hsnd⟩ := hpq
        dsimp only
        rw [hsnd]
        constructor
        · rintro ⟨ha, hc, c, hcm, hcid, hmm⟩
          exact ⟨ha, hc, c, hcm, hcid.symm, by rw [hcid]; exact hcontains,
            hmm.symm⟩
        · rintro ⟨ha, hc, c, hcm, hcid, hck, hmm⟩
          exact ⟨ha, hc, c, hcm, hcid.symm, hmm.symm⟩
  · intro env s ts hts hclean
    have h64 : extractUInt64 (encodeUInt64 ts) = some (ts, []) := by
      have := extractNum_encode_append 8 ts [] hts
      rw [List.append_nil] at this
      exact this
    unfold update
    rw [h64]
    dsimp only
    have hdec : decodeLoop s [] = (s, false) := rfl
    rw [hdec]
    dsimp only
    rw [if_neg (by decide : ¬ (false = true))]
    have hflag : (updateGroups s).requestDetectionUpdate = false :=
      (foldl_groupStep_flag _ _).trans hclean
    rw [if_neg (by rw [hflag]; simp)]
    refine ⟨_, rfl, ?_⟩
    intro id u hu
    obtain ⟨w, hw, hshape⟩ := foldl_groupStep_butGroup _ s id u hu
    exact ⟨w, hw, by rw [hshape]⟩

end Manager

namespace Manager

/-- C7 fails on the code as stated: the detection step is additionally gated
on the command mode (part_002 line 200).  With the dirty flag set but the
command mode equal to game master, `update` recomputes nothing and does not
clear the flag: unit 9's stale list [1] survives although no alive commanded
unit reports any contact (the duplicate-free inversion would be []). -/
theorem manager_detection_skipped_in_game_master_counterexample :
    update gmEnv staleState (encodeUInt64 1) = some (1, staleState)
    ∧ staleState.requestDetectionUpdate = true
    ∧ (staleState.getUnit 9).map Manager.Unit.detectionMethods = some [1]
    ∧ staleState.units.all (fun p => p.2.contacts.isEmpty) = true := by
  decide

/-- Witness for C7 at concrete inputs: in the dirty two-unit state the blue
observer's duplicated contacts on unit 9 are inverted (dirty flag set, blue
commander mode); in the clean one-unit state nothing is recomputed. -/
theorem manager_detection_inverts_contacts_when_dirty_witness :
    ((2 : Nat) < 2 ^ 64 ∧ detState.requestDetectionUpdate = true
      ∧ exEnv.commandMode ≠ GAME_MASTER
      ∧ (detState.units.map Prod.fst).Nodup
      ∧ ∃ s', update exEnv detState (encodeUInt64 2) = some (2, s')
          ∧ s'.requestDetectionUpdate = false
          ∧ ∀ (id : Nat) (u u' : Manager.Unit), detState.getUnit id = some u →
              s'.getUnit id = some u' →
              u'.detectionMethods.Nodup
              ∧ ∀ m, (m ∈ u'.detectionMethods ↔
                  ∃ p ∈ detState.units, p.2.alive = true
                    ∧ p.2.belongsToCommandedCoalition exEnv = true
                    ∧ ∃ c ∈ p.2.contacts, c.ID = id ∧ c.detectionMethod = m))
    ∧ ((5 : Nat) < 2 ^ 64 ∧ exState.requestDetectionUpdate = false
      ∧ ∃ s', update exEnv exState (encodeUInt64 5) = some (5, s')
          ∧ ∀ (id : Nat) (u : Manager.Unit), exState.getUnit id = some u →
              ∃ u', s'.getUnit id = some u'
                ∧ u'.detectionMethods = u.detectionMethods) :=
  ⟨⟨by decide, by decide, by decide, by decide,
      manager_detection_inverts_contacts_when_dirty.1 exEnv detState 2
        (by decide) (by decide) (by decide) (by decide)⟩,
    ⟨by decide, by decide,
      manager_detection_inverts_contacts_when_dirty.2 exEnv exState 5
        (by decide) (by decide)⟩⟩

end Manager

namespace Manager

theorem setSelected_false_selected (u : Unit) :
    (u.setSelected false).selected = false := by
  unfold Unit.setSelected
  split
  · next hcond => simp at hcond
  · rfl

theorem setSelected_alive_hotgroup (u : Unit) (b : Bool) :
    (u.setSelected b).alive = u.alive ∧ (u.setSelected b).hotgroup = u.hotgroup := by
  unfold Unit.setSelected
  split
  · exact ⟨rfl, rfl⟩
  · exact ⟨rfl, rfl⟩

theorem deselectAll_getUnit (s : State) (id : Nat) :
    (deselectAllUnits s).getUnit id
      = (s.getUnit id).map (fun u => u.setSelected false) := by
  unfold deselectAllUnits State.getUnit
  dsimp only
  exact lookup_map_keyed s.units (fun _ v => v.setSelected false) id

theorem deselectAll_keys (s : State) :
    (deselectAllUnits s).units.map Prod.fst = s.units.map Prod.fst := by
  unfold deselectAllUnits
  simp

theorem idsByHotgroup_mem (s : State) (h i : Nat) :
    i ∈ idsByHotgroup s h ↔
      ∃ u, (i, u) ∈ s.units ∧ u.alive = true ∧ u.hotgroup = some h := by
  unfold idsByHotgroup
  rw [List.mem_map]
  constructor
  · rintro ⟨p, hp, rfl⟩
    rw [List.mem_filter] at hp
    obtain ⟨hmem, hcond⟩ := hp
    rw [Bool.and_eq_true] at hcond
    refine ⟨p.2, hmem, hcond.1, ?_⟩
    rcases hh : p.2.hotgroup with _ | g
    · rw [hh] at hcond
      cases hcond.2
    · rw [hh] at hcond
      have := hcond.2
      simp only [beq_iff_eq] at this
      rw [this]
  · rintro ⟨u, hmem, ha, hh⟩
    refine ⟨(i, u), ?_, rfl⟩
    rw [List.mem_filter]
    refine ⟨hmem, ?_⟩
    rw [Bool.and_eq_true]
    exact ⟨ha, by rw [hh]; simp⟩

theorem getUnitsByHotgroup_mem (s : State) (h : Nat) (u : Unit) :
    u ∈ getUnitsByHotgroup s h ↔
      ((∃ id, (id, u) ∈ s.units) ∧ u.alive = true ∧ u.hotgroup = some h) := by
  unfold getUnitsByHotgroup
  rw [List.mem_filter, List.mem_map]
  constructor
  · rintro ⟨⟨p, hp, rfl⟩, hcond⟩
    rw [Bool.and_eq_true] at hcond
    refine ⟨⟨p.1, by simpa using hp⟩, hcond.1, ?_⟩
    rcases hh : p.2.hotgroup with _ | g
    · rw [hh] at hcond
      cases hcond.2
    · rw [hh] at hcond
      have := hcond.2
      simp only [beq_iff_eq] at this
      rw [this]
  · rintro ⟨⟨id, hmem⟩, ha, hh⟩
    refine ⟨⟨(id, u), hmem, rfl⟩, ?_⟩
    rw [Bool.and_eq_true]
    exact ⟨ha, by rw [hh]; simp⟩

end Manager

namespace Manager

theorem selectFold_invariant (ids : List Nat) (s1 : State) (h : Nat)
    (hids : ∀ i ∈ ids, i ∈ idsByHotgroup s1 h)
    (hn : (s1.units.map Prod.fst).Nodup) :
    ∀ st : State,
      (∀ id, (st.getUnit id).map (fun u => (u.alive, u.hotgroup))
        = (s1.getUnit id).map (fun u => (u.alive, u.hotgroup))) →
      (∀ id u', st.getUnit id = some u' → u'.selected = true →
        u'.alive = true ∧ u'.hotgroup = some h) →
      (∀ id u', (ids.foldl (fun st i =>
          match st.getUnit i with
          | some u => st.setUnit i (u.setSelected true)
          | none => st) st).getUnit id = some u' → u'.selected = true →
        u'.alive = true ∧ u'.hotgroup = some h) := by
  induction ids with
  | nil => intro st _ hI1; exact hI1
  | cons i ids ih =>
      intro st hI2 hI1
      rw [List.foldl_cons]
      have hids' : ∀ j ∈ ids, j ∈ idsByHotgroup s1 h :=
        fun j hj => hids j (List.mem_cons_of_mem _ hj)
      cases hst : st.getUnit i with
      | none => exact ih hids' st hI2 hI1
      | some u0 =>
          -- the unit at i in s1 is alive and in the hotgroup
          obtain ⟨w, hwmem, hwa, hwh⟩ := (idsByHotgroup_mem s1 h i).mp
            (hids i (List.mem_cons_self _ _))
          have hw : s1.getUnit i = some w := nodup_lookup s1.units i w hn hwmem
          have hah : u0.alive = true ∧ u0.hotgroup = some h := by
            have := hI2 i
            rw [hst, hw] at this
            dsimp only [Option.map] at this
            injection this with this
            injection this with h1 h2
            rw [h1, h2]
            exact ⟨hwa, hwh⟩
          refine ih hids' _ ?_ ?_
          · intro id
            rw [getUnit_setUnit]
            by_cases hid : id = i
            · subst hid
              rw [hst, hw]
              dsimp only [Option.map]
              rw [if_pos rfl]
              obtain ⟨ha2, hh2⟩ := setSelected_alive_hotgroup u0 true
              rw [ha2, hh2, hah.1, hah.2, hwa, hwh]
            · have hthis := hI2 id
              cases hsid : st.getUnit id with
              | none =>
                  rw [hsid] at hthis
                  dsimp only [Option.map]
                  exact hthis
              | some v =>
                  rw [hsid] at hthis
                  dsimp only [Option.map] at hthis ⊢
                  rw [if_neg hid]
                  exact hthis
          · intro id u' hu' hsel
            rw [getUnit_setUnit] at hu'
            by_cases hid : id = i
            · subst hid
              rw [hst] at hu'
              dsimp only [Option.map] at hu'
              rw [if_pos rfl] at hu'
              injection hu' with hu'
              obtain ⟨ha2, hh2⟩ := setSelected_alive_hotgroup u0 true
              rw [← hu']
              rw [ha2, hh2]
              exact hah
            · cases hsid : st.getUnit id with
              | none =>
                  rw [hsid] at hu'
                  cases hu'
              | some v =>
                  rw [hsid] at hu'
                  dsimp only [Option.map] at hu'
                  rw [if_neg hid] at hu'
                  injection hu' with hu'
                  subst hu'
                  exact hI1 id v hsid hsel

end Manager

namespace Manager

/-- The concrete unit obtained by selecting hotgroup 4 in `hotState`. -/
def selUnit3 : Unit := { category := "Aircraft", hotgroup := some 4, selected := true }

/-- C10: `getUnitsByHotgroup h` returns exactly the units that are alive and
whose hotgroup equals `h`; consequently `selectUnitsByHotgroup h` (with
deselect-all) leaves selected only units that are alive and in hotgroup `h`:
no dead unit and no unit of another hotgroup is ever selected. -/
theorem manager_hotgroup_selects_only_alive_matching :
    (∀ (s : State) (h : Nat) (u : Unit),
      u ∈ getUnitsByHotgroup s h ↔
        ((∃ id, (id, u) ∈ s.units) ∧ u.alive = true ∧ u.hotgroup = some h)) ∧
    (∀ (s : State) (h id : Nat) (u' : Unit),
      (s.units.map Prod.fst).Nodup →
      (selectUnitsByHotgroup s h true).getUnit id = some u' →
      u'.selected = true →
      u'.alive = true ∧ u'.hotgroup = some h) := by
  constructor
  · exact getUnitsByHotgroup_mem
  · intro s h id u' hn hget hsel
    unfold selectUnitsByHotgroup at hget
    rw [if_pos rfl] at hget
    have hn1 : ((deselectAllUnits s).units.map Prod.fst).Nodup := by
      rw [deselectAll_keys]; exact hn
    refine selectFold_invariant (idsByHotgroup (deselectAllUnits s) h)
      (deselectAllUnits s) h (fun i hi => hi) hn1 (deselectAllUnits s)
      (fun _ => rfl) ?_ id u' hget hsel
    intro j v hv hvsel
    rw [deselectAll_getUnit] at hv
    cases hjv : s.getUnit j with
    | none =>
        rw [hjv] at hv
        cases hv
    | some w =>
        rw [hjv] at hv
        dsimp only [Option.map] at hv
        injection hv with hv
        rw [← hv, setSelected_false_selected] at hvsel
        cases hvsel

/-- Witness for C10 at concrete inputs: in `hotState` selecting hotgroup 4
selects unit 3 (alive, hotgroup 4), and the theorem confirms any unit found
selected afterwards is alive and in hotgroup 4. -/
theorem manager_hotgroup_selects_only_alive_matching_witness :
    ((hotState.units.map Prod.fst).Nodup ∧
     (selectUnitsByHotgroup hotState 4 true).getUnit 3 = some selUnit3 ∧
     selUnit3.selected = true) ∧
    (selUnit3.alive = true ∧ selUnit3.hotgroup = some 4) :=
  ⟨⟨by decide, by decide, by decide⟩,
   manager_hotgroup_selects_only_alive_matching.2 hotState 4 3 selUnit3
     (by decide) (by decide) (by decide)⟩

end Manager
